import Mathlib

/-!
# ZBstorage core — shallow embedding and verification

This file embeds, in Lean 4, the parts of the ZBstorage distributed file
service that its specification makes claims about, and proves or refutes
those claims.  Each definition mirrors one C++ function of the repository
(file and function named in its doc comment); machine integers are
modelled as `Nat` with explicit `% 2 ^ w` at the points where the C++
arithmetic can wrap, byte buffers as `List Nat` (each element < 256), and
C++ `std::string` values as Lean `String` or byte lists depending on
whether the code treats them as text or raw bytes.

Sections:
1. Manifest log (`LocalMetadataManager`)
2. Inode slot serialization (`Inode::serialize` and `Inode::deserialize`)
3. Node registration (`StorageNodeManager` and `NodeRegistry`)
4. Cold-inode scan (`MdsServer::CollectColdInodesByAtimePercent`)
5. File-size encoding (`MdsServiceImpl::UpdateFileSize`)
6. Virtual-node ledger (`VirtualNodeLedger`)
7. Fd cache (`IOEngine`)
8. Virtual engine and dispatcher (`VirtualNodeEngine`, `RequestDispatcher`)
9. Root lookup (`MdsServer::FindInodeByPath`, `CreateRoot`)
-/

namespace ZB

/-! ## 1. Manifest log — src/storagenode/real_node/meta/LocalMetadataManager.cpp -/

/-- Lookup in an association-list model of `std::unordered_map<uint64_t, std::string>`.
Only lookup, assign and erase are exercised by the code; iteration order is
never observed, so the list order is immaterial. -/
def mapLookup (m : List (Nat × String)) (k : Nat) : Option String :=
  match m with
  | [] => none
  | (k0, v0) :: rest => if k0 = k then some v0 else mapLookup rest k

/-- `map[k] = v` on the association-list model (replace existing binding, else append). -/
def mapAssign (m : List (Nat × String)) (k : Nat) (v : String) : List (Nat × String) :=
  match m with
  | [] => [(k, v)]
  | (k0, v0) :: rest => if k0 = k then (k0, v) :: rest else (k0, v0) :: mapAssign rest k v

/-- `map.erase(k)` on the association-list model. -/
def mapErase (m : List (Nat × String)) (k : Nat) : List (Nat × String) :=
  match m with
  | [] => []
  | (k0, v0) :: rest => if k0 = k then rest else (k0, v0) :: mapErase rest k

/-- State of `LocalMetadataManager`: configured data roots, the round-robin
cursor `next_root_`, the in-memory map `path_map_`, and the text contents of
the append-only manifest log file. -/
structure LocalMetadataManager where
  data_roots : List String
  next_root : Nat
  path_map : List (Nat × String)
  manifest_log : String
deriving DecidableEq, Repr

/-- `EnsureTrailingSlash` (LocalMetadataManager.cpp:12): despite its name it
strips one trailing slash if present, else returns the input unchanged. -/
def EnsureTrailingSlash (s : String) : String :=
  if s ≠ "" ∧ s.back = '/' then (s.toList.take (s.length - 1)).asString else s

/-- Lower-case hex digit, as produced by `std::hex` on `std::ostringstream`. -/
def hexDigitChar (n : Nat) : Char :=
  if n < 10 then Char.ofNat (48 + n) else Char.ofNat (87 + n)

/-- `std::hex << std::setw(16) << std::setfill('0') << chunk_id`: 16 hex
digits, zero padded, most significant first (chunk ids are 64-bit). -/
def hex16 (n : Nat) : List Char :=
  (List.range 16).reverse.map (fun i => hexDigitChar (n / 16 ^ i % 16))

/-- `LocalMetadataManager::ShardedRelativePath` (LocalMetadataManager.cpp:124):
`hex16[0..2] / hex16[2..4] / chunk_<dec>`. -/
def ShardedRelativePath (chunk_id : Nat) : String :=
  let hex := hex16 chunk_id
  (hex.take 2).asString ++ "/" ++ ((hex.drop 2).take 2).asString ++ "/chunk_"
    ++ Nat.repr chunk_id

/-- `LocalMetadataManager::AppendRecord` (LocalMetadataManager.cpp:115):
appends `op ++ " " ++ dec(chunk_id) ++ " " ++ path ++ "\n"` to the log.
The DEL caller passes `path = ""`, so a DEL line carries no path token. -/
def AppendRecord (st : LocalMetadataManager) (op : String) (chunk_id : Nat)
    (path : String) : LocalMetadataManager :=
  { st with manifest_log :=
      st.manifest_log ++ op ++ " " ++ Nat.repr chunk_id ++ " " ++ path ++ "\n" }

/-- `LocalMetadataManager::AllocPath` (LocalMetadataManager.cpp:83).  Directory
creation on the real filesystem is a side effect with no bearing on the map or
the log and is not modelled. -/
def AllocPath (st : LocalMetadataManager) (chunk_id : Nat) : LocalMetadataManager :=
  match mapLookup st.path_map chunk_id with
  | some _ => st
  | none =>
    if h : st.data_roots.length = 0 then st
    else
      let root := st.data_roots.get ⟨st.next_root % st.data_roots.length,
        Nat.mod_lt _ (Nat.pos_of_ne_zero h)⟩
      let full_path := root ++ "/" ++ ShardedRelativePath chunk_id
      let st := { st with next_root := st.next_root + 1,
                          path_map := mapAssign st.path_map chunk_id full_path }
      AppendRecord st "ADD" chunk_id full_path

/-- `LocalMetadataManager::DeletePath` (LocalMetadataManager.cpp:105). -/
def DeletePath (st : LocalMetadataManager) (chunk_id : Nat) : LocalMetadataManager :=
  match mapLookup st.path_map chunk_id with
  | none => st
  | some _ =>
    AppendRecord { st with path_map := mapErase st.path_map chunk_id } "DEL" chunk_id ""

/-- Whitespace as skipped by formatted `std::istream` extraction. -/
def isStreamWs (c : Char) : Bool :=
  c = ' ' || c = '\t' || c = '\n' || c = '\r' || c = '\x0b' || c = '\x0c'

/-- `in >> op` for a string: skip whitespace, then take the maximal run of
non-whitespace characters; extraction fails (stream goes bad) on end of input. -/
def readStrTok (cs : List Char) : Option (String × List Char) :=
  let l := cs.dropWhile isStreamWs
  let t := l.takeWhile (fun c => !isStreamWs c)
  if t.isEmpty then none else some (t.asString, l.drop t.length)

/-- `in >> chunk_id` for `uint64_t`: skip whitespace, then take the maximal
run of decimal digits (which may end inside a token); extraction fails when no
digit follows.  Signs and 64-bit overflow clamping are not exercised by any
log the manager writes and are not modelled. -/
def readNatTok (cs : List Char) : Option (Nat × List Char) :=
  let l := cs.dropWhile isStreamWs
  let d := l.takeWhile (fun c => c.isDigit)
  if d.isEmpty then none
  else some (d.foldl (fun a c => a * 10 + (c.toNat - 48)) 0, l.drop d.length)

/-- The replay loop of `LocalMetadataManager::LoadManifest`
(LocalMetadataManager.cpp:64): `while (in >> op >> chunk_id >> path)` folding
ADD (assign) and DEL (erase) records into the map; the loop ends as soon as
one extraction fails.  Fuel bounds the recursion; each successful iteration
consumes at least one character, so `length + 1` fuel is always enough. -/
def LoadManifestLoop : Nat → List Char → List (Nat × String) → List (Nat × String)
  | 0, _, m => m
  | Nat.succ fuel, cs, m =>
    match readStrTok cs with
    | none => m
    | some (op, cs1) =>
      match readNatTok cs1 with
      | none => m
      | some (chunk_id, cs2) =>
        match readStrTok cs2 with
        | none => m
        | some (path, cs3) =>
          let m := if op = "ADD" then mapAssign m chunk_id path
                   else if op = "DEL" then mapErase m chunk_id
                   else m
          LoadManifestLoop fuel cs3 m

/-- `LocalMetadataManager::LoadManifest` (LocalMetadataManager.cpp:51) applied
to the text of the log file, starting from an empty map. -/
def LoadManifest (log : String) : List (Nat × String) :=
  LoadManifestLoop (log.length + 1) log.toList []

/-- A fresh manager over one data root, as built by the constructor
(LocalMetadataManager.cpp:21) when no prior manifest exists. -/
def freshManager (roots : List String) : LocalMetadataManager :=
  { data_roots := roots.map EnsureTrailingSlash
    next_root := 0
    path_map := []
    manifest_log := "" }

/-! ## 2. Inode slot format — src/mds/inode/inode.cpp, inode.h, InodeTimestamp.h

Byte buffers are `List Nat` with every element below 256.  Multi-byte fields
are little endian, as produced by `memcpy` of the underlying integers on the
x86-64 target the repository builds for. -/

/-- `encLE w x`: the `w` little-endian bytes of `x` (as `memcpy` of a `w`-byte
unsigned integer produces them). -/
def encLE : Nat → Nat → List Nat
  | 0, _ => []
  | Nat.succ w, x => x % 256 :: encLE w (x / 256)

/-- Read `w` little-endian bytes into a value; `none` when fewer than `w`
bytes remain (the `safe_read` bounds check of `Inode::deserialize`). -/
def readLE : Nat → List Nat → Option (Nat × List Nat)
  | 0, l => some (0, l)
  | Nat.succ _, [] => none
  | Nat.succ w, b :: l =>
    match readLE w l with
    | none => none
    | some (v, r) => some (b + 256 * v, r)

/-- Read a run of `n` raw bytes; `none` when fewer than `n` remain. -/
def readBytes (n : Nat) (l : List Nat) : Option (List Nat × List Nat) :=
  if n ≤ l.length then some (l.take n, l.drop n) else none

/-- The 28-bit timestamp of `InodeTimestamp.h`: bit fields
`year:8, month:6, day:6, hour:6, minute:6` packed into one `uint32_t`
(first declared field in the least significant bits, per the GCC ABI). -/
structure InodeTimestamp where
  year : Nat
  month : Nat
  day : Nat
  hour : Nat
  minute : Nat
deriving DecidableEq, Repr

/-- Field-width bounds guaranteed by the C++ bit fields. -/
def InodeTimestamp.WF (t : InodeTimestamp) : Prop :=
  t.year < 2 ^ 8 ∧ t.month < 2 ^ 6 ∧ t.day < 2 ^ 6 ∧ t.hour < 2 ^ 6 ∧ t.minute < 2 ^ 6

instance (t : InodeTimestamp) : Decidable t.WF := by
  unfold InodeTimestamp.WF; infer_instance

/-- The raw `uint32_t` holding the packed bit fields. -/
def InodeTimestamp.raw (t : InodeTimestamp) : Nat :=
  t.year + 2 ^ 8 * t.month + 2 ^ 14 * t.day + 2 ^ 20 * t.hour + 2 ^ 26 * t.minute

/-- Unpacking a raw `uint32_t` into the bit fields (what `memcpy` into the
struct yields on read-back). -/
def InodeTimestamp.ofRaw (v : Nat) : InodeTimestamp :=
  { year := v % 2 ^ 8
    month := v / 2 ^ 8 % 2 ^ 6
    day := v / 2 ^ 14 % 2 ^ 6
    hour := v / 2 ^ 20 % 2 ^ 6
    minute := v / 2 ^ 26 % 2 ^ 6 }

/-- Modelled from the spec: `BlockSegment` (block segment triple
`{logical_start, physical_start, count}`, three 8-byte fields, fixed width).
Its defining header `src/fs/volume/Volume.h` is not part of the sources; the
field names follow the accesses in inode.cpp (`seg.logical_start`,
`seg.start_block`, `seg.block_count`). -/
structure BlockSegment where
  logical_start : Nat
  start_block : Nat
  block_count : Nat
deriving DecidableEq, Repr

/-- 64-bit bounds of the three segment fields. -/
def BlockSegment.WF (s : BlockSegment) : Prop :=
  s.logical_start < 2 ^ 64 ∧ s.start_block < 2 ^ 64 ∧ s.block_count < 2 ^ 64

instance (s : BlockSegment) : Decidable s.WF := by
  unfold BlockSegment.WF; infer_instance

/-- `append(&seg, sizeof(seg))`: the 24 bytes of one segment. -/
def encSeg (s : BlockSegment) : List Nat :=
  encLE 8 s.logical_start ++ encLE 8 s.start_block ++ encLE 8 s.block_count

/-- Read one 24-byte segment (`safe_read(&out.block_segments[i], sizeof(BlockSegment))`). -/
def readSeg (l : List Nat) : Option (BlockSegment × List Nat) :=
  match readLE 8 l with
  | none => none
  | some (ls, l1) =>
    match readLE 8 l1 with
    | none => none
    | some (sb, l2) =>
      match readLE 8 l2 with
      | none => none
      | some (cnt, l3) => some (⟨ls, sb, cnt⟩, l3)

/-- Concatenated encodings of a segment list (the serialize loop over
`block_segments`). -/
def encSegList : List BlockSegment → List Nat
  | [] => []
  | s :: rest => encSeg s ++ encSegList rest

/-- Helper for `readSegs`: read exactly `n` segments in sequence. -/
def readSegsCore : Nat → List Nat → Option (List BlockSegment × List Nat)
  | 0, l => some ([], l)
  | Nat.succ n, l =>
    match readSeg l with
    | none => none
    | some (s, r) =>
      match readSegsCore n r with
      | none => none
      | some (ss, r2) => some (s :: ss, r2)

/-- Read `n` segments.  The C++ loop resizes the vector first and fails as
soon as a `safe_read` runs out of buffer; the up-front size check
`n * 24 ≤ length` is equivalent at the level of the returned result. -/
def readSegs (n : Nat) (l : List Nat) : Option (List BlockSegment × List Nat) :=
  if n * 24 ≤ l.length then readSegsCore n l else none

/-- The `Inode` struct of inode.h.  The three bit-field unions are kept as
their raw 16-bit values (`location_id.raw`, `file_mode.raw`, `file_size.raw`),
which is the representation `serialize` writes; the string members
(`filename`, `namespace_id`, `volume_id`) and the digest are byte lists. -/
structure Inode where
  location_raw : Nat
  block_id : Nat
  filename_len : Nat
  digest_len : Nat
  file_mode_raw : Nat
  file_size_raw : Nat
  inode : Nat
  namespace_id : List Nat
  fm_time : InodeTimestamp
  fa_time : InodeTimestamp
  im_time : InodeTimestamp
  fc_time : InodeTimestamp
  filename : List Nat
  digest : List Nat
  volume_id : List Nat
  block_segments : List BlockSegment
deriving DecidableEq, Repr

/-- `location_id.fields.node_id` (low 14 bits of the raw location). -/
def Inode.nodeId (i : Inode) : Nat := i.location_raw % 2 ^ 14

/-- `location_id.fields.node_type` (high 2 bits of the raw location). -/
def Inode.nodeType (i : Inode) : Nat := i.location_raw / 2 ^ 14 % 4

/-- `file_size.fields.size_unit` (low 2 bits). -/
def Inode.sizeUnit (i : Inode) : Nat := i.file_size_raw % 4

/-- `file_size.fields.file_size` (high 14 bits). -/
def Inode.sizeValue (i : Inode) : Nat := i.file_size_raw / 4 % 2 ^ 14

/-- `Inode::getFileSize` (inode.cpp:96): decode (unit, value) to bytes. -/
def Inode.getFileSize (i : Inode) : Nat :=
  let value := i.sizeValue
  if i.sizeUnit = 0 then value
  else if i.sizeUnit = 1 then value * 1024
  else if i.sizeUnit = 2 then value * 1024 * 1024
  else value * 1024 * 1024 * 1024

/-- `NormalizeNamespaceId` (inode.cpp:27): exactly 32 bytes, truncating from
the front or zero-padding (ASCII `0` = byte 48) on the left. -/
def NormalizeNamespaceId (id : List Nat) : List Nat :=
  if id.length = 32 then id
  else if 32 < id.length then id.drop (id.length - 32)
  else List.replicate (32 - id.length) 48 ++ id

/-- Bounds guaranteed by the C++ field types. -/
def Inode.WF (i : Inode) : Prop :=
  i.location_raw < 2 ^ 16 ∧ i.block_id < 2 ^ 16 ∧
  i.filename_len < 2 ^ 8 ∧ i.digest_len < 2 ^ 8 ∧
  i.file_mode_raw < 2 ^ 16 ∧ i.file_size_raw < 2 ^ 16 ∧
  i.inode < 2 ^ 64 ∧
  (∀ b ∈ i.namespace_id, b < 256) ∧
  i.fm_time.WF ∧ i.fa_time.WF ∧ i.im_time.WF ∧ i.fc_time.WF ∧
  (∀ b ∈ i.filename, b < 256) ∧ (∀ b ∈ i.digest, b < 256) ∧
  (∀ b ∈ i.volume_id, b < 256) ∧
  i.block_segments.length < 2 ^ 32 ∧ ∀ s ∈ i.block_segments, s.WF

instance (i : Inode) : Decidable i.WF := by
  unfold Inode.WF; infer_instance

/-- `Inode::serialize` (inode.cpp:139): fixed header, 32-byte namespace, the
four packed timestamps, then filename bytes, digest bytes, a one-byte
(truncating) volume-id length followed by the full volume id, a `uint32_t`
segment count (truncating) and the segment triples. -/
def Inode.serialize (i : Inode) : List Nat :=
  encLE 2 i.location_raw ++ encLE 2 i.block_id ++
  encLE 1 i.filename_len ++ encLE 1 i.digest_len ++
  encLE 2 i.file_mode_raw ++ encLE 2 i.file_size_raw ++
  encLE 8 i.inode ++
  NormalizeNamespaceId i.namespace_id ++
  encLE 4 i.fm_time.raw ++ encLE 4 i.fa_time.raw ++
  encLE 4 i.im_time.raw ++ encLE 4 i.fc_time.raw ++
  i.filename ++ i.digest ++
  encLE 1 i.volume_id.length ++ i.volume_id ++
  encLE 4 i.block_segments.length ++
  encSegList i.block_segments

/-- `Inode::deserialize` (inode.cpp:182) on a whole buffer (offset 0,
`total_size` = buffer length).  Each `safe_read` bounds failure yields `none`;
trailing bytes after the segments are ignored, as in the C++.  The C++ copies
the volume id without a bounds check (an out-of-bounds read when the declared
length overruns the buffer); the model treats that overrun as a failure, a
case no caller in the repository reaches. -/
def Inode.deserialize (data : List Nat) : Option Inode :=
  match readLE 2 data with
  | none => none
  | some (location_raw, d1) =>
  match readLE 2 d1 with
  | none => none
  | some (block_id, d2) =>
  match readLE 1 d2 with
  | none => none
  | some (filename_len, d3) =>
  match readLE 1 d3 with
  | none => none
  | some (digest_len, d4) =>
  match readLE 2 d4 with
  | none => none
  | some (file_mode_raw, d5) =>
  match readLE 2 d5 with
  | none => none
  | some (file_size_raw, d6) =>
  match readLE 8 d6 with
  | none => none
  | some (ino, d7) =>
  match readBytes 32 d7 with
  | none => none
  | some (ns, d8) =>
  match readLE 4 d8 with
  | none => none
  | some (fm, d9) =>
  match readLE 4 d9 with
  | none => none
  | some (fa, d10) =>
  match readLE 4 d10 with
  | none => none
  | some (im, d11) =>
  match readLE 4 d11 with
  | none => none
  | some (fc, d12) =>
  match readBytes filename_len d12 with
  | none => none
  | some (fname, d13) =>
  match readBytes digest_len d13 with
  | none => none
  | some (dig, d14) =>
  match readLE 1 d14 with
  | none => none
  | some (volume_id_len, d15) =>
  match readBytes volume_id_len d15 with
  | none => none
  | some (vol, d16) =>
  match readLE 4 d16 with
  | none => none
  | some (segment_count, d17) =>
  match readSegs segment_count d17 with
  | none => none
  | some (segs, _) =>
    some { location_raw := location_raw
           block_id := block_id
           filename_len := filename_len
           digest_len := digest_len
           file_mode_raw := file_mode_raw
           file_size_raw := file_size_raw
           inode := ino
           namespace_id := ns
           fm_time := InodeTimestamp.ofRaw fm
           fa_time := InodeTimestamp.ofRaw fa
           im_time := InodeTimestamp.ofRaw im
           fc_time := InodeTimestamp.ofRaw fc
           filename := fname
           digest := dig
           volume_id := vol
           block_segments := segs }

/-! ## Status codes — src/common/StatusUtils.cpp, rpc proto

The proto enum is an opaque wire detail (spec section 7 fixes the kinds, with
`Success = 0`); the kinds are modelled as a closed inductive. -/

/-- The stable error kinds of spec section 7. -/
inductive StatusCode where
  | Success
  | InvalidArgument
  | NodeNotFound
  | IoError
  | NetworkError
  | VirtualNodeError
  | UnknownError
deriving DecidableEq, Repr

/-- `rpc::Status`: code plus message.  A default-constructed proto status has
code 0 (= Success) and an empty message. -/
structure Status where
  code : StatusCode
  message : String
deriving DecidableEq, Repr

/-- The default-constructed `rpc::Status`. -/
def Status.default : Status := ⟨StatusCode.Success, ""⟩

/-- `StatusUtils::SetStatus` (StatusUtils.cpp): success clears the message;
failures replace an empty message by "error". -/
def SetStatus (code : StatusCode) (msg : String) : Status :=
  if code = StatusCode.Success then ⟨code, ""⟩
  else ⟨code, if msg = "" then "error" else msg⟩

/-! ## 3. Node registration — src/srm/StorageNodeManager.cpp, NodeRegistry.cpp -/

/-- `NodeType` of NodeRegistry.h. -/
inductive NodeType where
  | Real
  | Virtual
deriving DecidableEq, Repr

/-- `NodeState` of NodeRegistry.h. -/
inductive NodeState where
  | Online
  | Offline
  | Suspected
deriving DecidableEq, Repr

/-- `NodeContext` of NodeRegistry.h.  `disks` and `sim_params` are carried by
the registry but never observed by the claims under proof and are omitted;
`last_heartbeat` is an abstract tick. -/
structure NodeContext where
  node_id : String
  ip : String
  port : Nat
  hostname : String
  ntype : NodeType
  state : NodeState
  last_heartbeat : Nat
deriving DecidableEq, Repr

/-- The registry map `nodes_` as an association list keyed by node id. -/
abbrev Registry := List (String × NodeContext)

/-- Lookup by node id. -/
def Registry.find : Registry → String → Option NodeContext
  | [], _ => none
  | (k, v) :: rest, id => if k = id then some v else Registry.find rest id

/-- `nodes_[key] = value` (insert or replace). -/
def Registry.assign : Registry → String → NodeContext → Registry
  | [], k, v => [(k, v)]
  | (k0, v0) :: rest, k, v =>
    if k0 = k then (k0, v) :: rest else (k0, v0) :: Registry.assign rest k v

/-- `NodeRegistry::Upsert` (NodeRegistry.cpp:5): stamps `last_heartbeat = now`
and stores the context under its own `node_id`. -/
def Registry.Upsert (reg : Registry) (ctx : NodeContext) (now : Nat) : Registry :=
  Registry.assign reg ctx.node_id { ctx with last_heartbeat := now }

/-- `NodeRegistry::UpdateHeartbeat` (NodeRegistry.cpp:11): requires the node
to exist; sets the heartbeat tick and state Online. -/
def Registry.UpdateHeartbeat (reg : Registry) (node_id : String) (now : Nat) :
    Bool × Registry :=
  match Registry.find reg node_id with
  | none => (false, reg)
  | some ctx =>
    (true, Registry.assign reg node_id
      { ctx with last_heartbeat := now, state := NodeState.Online })

/-- Moving out of a `std::string` (libstdc++/libc++): the move constructor
steals the heap buffer and leaves the source empty.  Generated node ids have
the form `node-<epoch_ms>-<seq>` (well over the 15-byte small-string
capacity), so the moved-from id is the empty string. -/
def movedFromString (_ : String) : String := ""

/-- `storagenode::RegisterRequest` fields read by `HandleRegister`. -/
structure RegisterRequest where
  ip : String
  port : Nat
  hostname : String
deriving DecidableEq, Repr

/-- `storagenode::RegisterResponse`. -/
structure RegisterResponse where
  node_id : String
  status : Status
deriving DecidableEq, Repr

/-- `StorageNodeManager::HandleRegister` (StorageNodeManager.cpp:55).
`gen_id` stands for the `GenerateNodeId()` result (clock + sequence) and
`now` for `steady_clock::now()`.  The C++ calls `registry_.Upsert(std::move(ctx))`
and only afterwards reads `ctx.node_id` into the response, so the response
carries the moved-from string.  `RegisterToMDS` has no effect on the registry
and is not modelled. -/
def HandleRegister (reg : Registry) (req : RegisterRequest) (gen_id : String)
    (now : Nat) : Registry × RegisterResponse :=
  if req.ip = "" ∨ req.port = 0 then
    (reg, ⟨"", SetStatus StatusCode.InvalidArgument "missing ip/port"⟩)
  else
    let ctx : NodeContext :=
      { node_id := gen_id, ip := req.ip, port := req.port,
        hostname := req.hostname, ntype := NodeType.Real,
        state := NodeState.Online, last_heartbeat := now }
    let reg := Registry.Upsert reg ctx now
    let ctx := { ctx with node_id := movedFromString ctx.node_id }
    (reg, ⟨ctx.node_id, SetStatus StatusCode.Success ""⟩)

/-- `storagenode::HeartbeatResponse`. -/
structure HeartbeatResponse where
  status : Status
  require_rereg : Bool
deriving DecidableEq, Repr

/-- `StorageNodeManager::HandleHeartbeat` (StorageNodeManager.cpp:84). -/
def HandleHeartbeat (reg : Registry) (node_id : String) (now : Nat) :
    Registry × HeartbeatResponse :=
  if node_id = "" then
    (reg, ⟨SetStatus StatusCode.InvalidArgument "empty node_id", true⟩)
  else
    match Registry.UpdateHeartbeat reg node_id now with
    | (false, reg) => (reg, ⟨SetStatus StatusCode.NodeNotFound "node not registered", true⟩)
    | (true, reg) => (reg, ⟨SetStatus StatusCode.Success "", false⟩)

/-! ## 4. Cold-inode scan — src/mds/server/Server.cpp -/

/-- `inode_timestamp_key` (Server.cpp:59): the 32-bit sort key
`(year & 0xFF) << 24 | (month & 0x3F) << 18 | (day & 0x3F) << 12 |
(hour & 0x3F) << 6 | (minute & 0x3F)`; the masked fields occupy disjoint bit
ranges, so the ors are sums. -/
def inode_timestamp_key (t : InodeTimestamp) : Nat :=
  t.year % 256 * 2 ^ 24 + t.month % 64 * 2 ^ 18 + t.day % 64 * 2 ^ 12 +
  t.hour % 64 * 2 ^ 6 + t.minute % 64

/-- The slotted inode store as the scan sees it: capacity
(`meta_->get_total_inodes()`), the allocator bitmap (`is_inode_allocated`)
and slot reads (`read_inode`, `none` on a failed read or deserialize). -/
structure InodeStore where
  total_inodes : Nat
  allocated : Nat → Bool
  read_inode : Nat → Option Inode

/-- The candidate vector built by the scan loop (Server.cpp:549): one
`(ino, key(fa_time))` pair per allocated slot whose read succeeds, in slot
order. -/
def coldVec (st : InodeStore) : List (Nat × Nat) :=
  (List.range st.total_inodes).filterMap (fun ino =>
    if st.allocated ino then
      match st.read_inode ino with
      | some di => some (ino, inode_timestamp_key di.fa_time)
      | none => none
    else none)

/-- The comparator of the scan sort: second components (keys) ascending.  The
C++ `std::stable_sort` with `a.second < b.second` is modelled by
`List.insertionSort` with the reflexive closure `a.2 ≤ b.2`, which is a stable
sort producing the identical list. -/
def keyLe (a b : Nat × Nat) : Prop := a.2 ≤ b.2

instance : DecidableRel keyLe := fun a b => by unfold keyLe; infer_instance

instance : IsTotal (Nat × Nat) keyLe := ⟨fun a b => Nat.le_total a.2 b.2⟩

instance : IsTrans (Nat × Nat) keyLe := ⟨fun _ _ _ h1 h2 => Nat.le_trans h1 h2⟩

/-- Structural (fuel-driven) base-2 logarithm over `Nat`; `log2fuel f n` is
`⌊log₂ n⌋` whenever `1 ≤ n ≤ f`. -/
def log2fuel : Nat → Nat → Nat
  | 0, _ => 0
  | fuel + 1, n => if n ≤ 1 then 0 else log2fuel fuel (n / 2) + 1

/-- `⌊log₂ n⌋` for `n ≥ 1` (0 at 0). -/
def natLog2 (n : Nat) : Nat := log2fuel n n

/-- `⌊log₂ q⌋` for a positive rational: the unique `e` with
`2 ^ e ≤ q < 2 ^ (e + 1)`. -/
def ratLog2 (q : ℚ) : ℤ :=
  if 1 ≤ q then (natLog2 ⌊q⌋₊ : ℤ)
  else
    let r := 1 / q
    let m := natLog2 ⌊r⌋₊
    if r ≤ 2 ^ m then -(m : ℤ) else -((m : ℤ) + 1)

/-- Round a rational to the nearest integer, ties to the even neighbour —
the IEEE-754 default rounding used by every C++ `double` operation. -/
def roundHalfEven (x : ℚ) : ℤ :=
  let f := ⌊x⌋
  if x - (f : ℚ) < 1 / 2 then f
  else if 1 / 2 < x - (f : ℚ) then f + 1
  else if f % 2 = 0 then f else f + 1

/-- Binary64 round-to-nearest-even of a positive rational: the `double`
value a correctly rounded IEEE operation produces when its exact result is
`q`, for `q` in the normal finite range — the only case the cold scan
reaches, with percentages and slot counts far from the underflow and
overflow thresholds, so subnormals, infinities and the exponent cap are not
modelled.  The significand is 53 bits: `q` is scaled by `2 ^ e` into
`[2 ^ 52, 2 ^ 53)` and rounded half-to-even there.  Nonpositive inputs
(never produced here) map to 0. -/
def roundDouble (q : ℚ) : ℚ :=
  if q ≤ 0 then 0
  else
    let e : ℤ := ratLog2 q - 52
    ((roundHalfEven (q / 2 ^ e) : ℤ) : ℚ) * 2 ^ e

/-- `MdsServer::CollectColdInodesByAtimePercent` (Server.cpp:538).  The pick
count `static_cast<size_t>(std::ceil((percent / 100.0) * static_cast<double>(total)))`
is computed in binary64: the division `percent / 100.0`, the conversion
`(double)total` and the multiplication each round to nearest
(`roundDouble`); `std::ceil` of the resulting double is exact, and the
`size_t` cast of its nonnegative integral result is `Int.toNat ∘ Int.ceil`.
`percent` itself stands for the exact value of the `double` argument. -/
def CollectColdInodesByAtimePercent (st : InodeStore) (percent : ℚ) : List Nat :=
  if percent ≤ 0 then []
  else if st.total_inodes = 0 then []
  else
    let vec := coldVec st
    if vec.isEmpty then []
    else
      let sorted := vec.insertionSort keyLe
      let total := vec.length
      let pick0 := Int.toNat ⌈roundDouble (roundDouble (percent / 100) * roundDouble (total : ℚ))⌉
      let pick1 := if pick0 = 0 ∧ 0 < percent then 1 else pick0
      let pick := if total < pick1 then total else pick1
      (sorted.take pick).map Prod.fst

/-! ## 5. File-size encoding — src/msg/RPC/server/mds_service_impl.cpp -/

/-- `Inode::setSizeUnit` (inode.cpp:66): replace the low 2 bits of
`file_size.raw`; stamps `im_time` with the current time. -/
def Inode.setSizeUnitF (i : Inode) (unit : Nat) (now : InodeTimestamp) : Inode :=
  { i with file_size_raw := i.file_size_raw / 4 * 4 + unit % 4, im_time := now }

/-- `Inode::setFileSize` (inode.cpp:70): replace the high 14 bits of
`file_size.raw`; stamps `im_time`. -/
def Inode.setFileSizeF (i : Inode) (value : Nat) (now : InodeTimestamp) : Inode :=
  { i with file_size_raw := i.file_size_raw % 4 + value % 2 ^ 14 * 4, im_time := now }

/-- `Inode::setFmTime` (inode.cpp:74): sets `fm_time`; stamps `im_time`. -/
def Inode.setFmTimeF (i : Inode) (t now : InodeTimestamp) : Inode :=
  { i with fm_time := t, im_time := now }

/-- The (unit, value) encoding of `MdsServiceImpl::UpdateFileSize`
(mds_service_impl.cpp:208-226): smallest of B/KB/MB/GB whose 14-bit value
holds the rounded-up size; the GB value is clamped to 16383.  The GB-branch
sum `size_bytes + gb - 1` is 64-bit arithmetic and can wrap, hence the
explicit `% 2 ^ 64`. -/
def encodeFileSizeFields (n : Nat) : Nat × Nat :=
  if n ≤ 16383 then (0, n)
  else if n ≤ 16383 * 1024 then (1, (n + 1023) / 1024)
  else if n ≤ 16383 * 1024 * 1024 then
    (2, (n + (1024 * 1024 - 1)) / (1024 * 1024))
  else
    let gb := 1024 * 1024 * 1024
    let v := (n + gb - 1) % 2 ^ 64 / gb
    (3, if 16383 < v then 16383 else v)

/-- `MdsServiceImpl::UpdateFileSize` (mds_service_impl.cpp:191) acting on the
inode store as a slot-to-inode map; `now` stands for the wall clock read by
`InodeTimestamp()`.  Slot writes are modelled as succeeding (the I/O failure
branch only changes the reported status). -/
def UpdateFileSizeOp (store : Nat → Option Inode) (ino n : Nat)
    (now : InodeTimestamp) : Status × (Nat → Option Inode) :=
  if ino = 0 then (SetStatus StatusCode.InvalidArgument "missing inode", store)
  else
    match store ino with
    | none => (SetStatus StatusCode.NodeNotFound "inode not found", store)
    | some i =>
      let uv := encodeFileSizeFields n
      let i := ((i.setSizeUnitF uv.1 now).setFileSizeF uv.2 now).setFmTimeF now now
      (SetStatus StatusCode.Success "",
       fun j => if j = ino then some i else store j)

/-! ## 6. Virtual-node ledger — src/srm/virtual/VirtualNodeLedger.cpp -/

/-- `VirtualNodeLedger::DeviceState`.  The two throughput doubles are loaded
and stored but never read by any operation under proof and are omitted. -/
structure DeviceState where
  device_id : String
  dtype : String
  capacity : Nat
  used : Nat
  free : Nat
deriving DecidableEq, Repr

/-- `VirtualNodeLedger::NodeState` (a node with its device lists). -/
structure LedgerNode where
  node_id : String
  ntype : Nat
  ssd_devices : List DeviceState
  hdd_devices : List DeviceState
deriving DecidableEq, Repr

/-- One parsed JSON device object as `load_devices`
(VirtualNodeLedger.cpp:63) reads it: `value(key, default)` with a `contains`
check is an optional field. -/
structure DeviceJson where
  device_id : String
  dtype : String
  capacity : Nat
  used_bytes : Option Nat
  used : Option Nat
  free_bytes : Option Nat
  free : Option Nat
deriving DecidableEq, Repr

/-- One parsed JSON node object. -/
structure NodeJson where
  node_id : String
  ntype : Nat
  ssd_devices : Option (List DeviceJson)
  hdd_devices : Option (List DeviceJson)
deriving DecidableEq, Repr

/-- The device branch of `load_devices` (VirtualNodeLedger.cpp:67-92):
`used` from `used_bytes` else `used` else 0; `free` from `free_bytes` else
`free` else `capacity - used` (clamped at 0); then `free` and `used` are each
clamped to `capacity` — separately, which is why `used + free ≤ capacity` is
not enforced. -/
def loadDevice (j : DeviceJson) : DeviceState :=
  let used :=
    match j.used_bytes with
    | some u => u
    | none => match j.used with | some u => u | none => 0
  let free :=
    match j.free_bytes with
    | some f => f
    | none =>
      match j.free with
      | some f => f
      | none => if j.capacity > used then j.capacity - used else 0
  let free := if free > j.capacity then j.capacity else free
  let used := if used > j.capacity then j.capacity else used
  { device_id := j.device_id, dtype := j.dtype, capacity := j.capacity,
    used := used, free := free }

/-- `load_devices` over a device array. -/
def loadDevices (l : Option (List DeviceJson)) : List DeviceState :=
  match l with
  | none => []
  | some devs => devs.map loadDevice

/-- `ParseIndex` (VirtualNodeLedger.cpp:11): node id = `prefix` ++ nonempty
digit string whose value fits `uint16_t`. -/
def ParseIndex (value pfx : String) : Option Nat :=
  if value.toList.take pfx.length = pfx.toList then
    let suffix := value.drop pfx.length
    if suffix.length = 0 then none
    else if suffix.toList.all (fun c => c.isDigit) then
      let idx := suffix.toList.foldl (fun a c => a * 10 + (c.toNat - 48)) 0
      if idx ≤ 65535 then some idx else none
    else none
  else none

/-- Place `id` at index `idx` of a positional list, growing with `""` (the
`resize` + assignment of `RebuildIndex`). -/
def placeAt (l : List String) (idx : Nat) (id : String) : List String :=
  let l := if l.length ≤ idx then l ++ List.replicate (idx + 1 - l.length) "" else l
  l.set idx id

/-- The ledger: nodes as an association list in `unordered_map` iteration
order (a fixed order is chosen; no claim under proof observes it), the three
positional index lists rebuilt by `RebuildIndex`, and the dirty flag. -/
structure VirtualNodeLedger where
  nodes : List (String × LedgerNode)
  ssd_nodes : List String
  hdd_nodes : List String
  mix_nodes : List String
  dirty : Bool
deriving DecidableEq, Repr

/-- Association-list lookup for the node map. -/
def lnodesFind : List (String × LedgerNode) → String → Option LedgerNode
  | [], _ => none
  | (k, v) :: rest, id => if k = id then some v else lnodesFind rest id

/-- Association-list insert-or-replace for the node map. -/
def lnodesAssign : List (String × LedgerNode) → String → LedgerNode →
    List (String × LedgerNode)
  | [], k, v => [(k, v)]
  | (k0, v0) :: rest, k, v =>
    if k0 = k then (k0, v) :: rest else (k0, v0) :: lnodesAssign rest k v

/-- `VirtualNodeLedger::RebuildIndex` (VirtualNodeLedger.cpp:398). -/
def RebuildIndex (nodes : List (String × LedgerNode)) :
    List String × List String × List String :=
  nodes.foldl
    (fun acc kv =>
      let node := kv.2
      let place := fun (target : List String) (pfx : String) =>
        match ParseIndex node.node_id pfx with
        | some idx => placeAt target idx node.node_id
        | none => target ++ [node.node_id]
      if node.ntype = 0 then (place acc.1 "node_ssd_", acc.2.1, acc.2.2)
      else if node.ntype = 1 then (acc.1, place acc.2.1 "node_hdd_", acc.2.2)
      else (acc.1, acc.2.1, place acc.2.2 "node_mix_"))
    ([], [], [])

/-- `VirtualNodeLedger::LoadFromJson` (VirtualNodeLedger.cpp:38) applied to
the parsed `nodes` array: skip entries with an empty node id, load the two
device lists, replace the map, rebuild the index, clear the dirty flag. -/
def LoadFromJson (njs : List NodeJson) : VirtualNodeLedger :=
  let nodes := njs.foldl
    (fun acc j =>
      if j.node_id = "" then acc
      else lnodesAssign acc j.node_id
        { node_id := j.node_id, ntype := j.ntype,
          ssd_devices := loadDevices j.ssd_devices,
          hdd_devices := loadDevices j.hdd_devices })
    []
  let idx := RebuildIndex nodes
  { nodes := nodes, ssd_nodes := idx.1, hdd_nodes := idx.2.1,
    mix_nodes := idx.2.2, dirty := false }

/-- `VirtualNodeLedger::InitEmpty` (VirtualNodeLedger.cpp:176). -/
def InitEmpty (ssd_n hdd_n mix_n capacity_bytes : Nat) : VirtualNodeLedger :=
  let mk := fun (pfx : String) (i ty : Nat) (ssd hdd : List DeviceState) =>
    (pfx ++ Nat.repr i,
      ({ node_id := pfx ++ Nat.repr i, ntype := ty,
         ssd_devices := ssd, hdd_devices := hdd } : LedgerNode))
  let ssdDev := fun (id : String) (cap : Nat) =>
    ({ device_id := id ++ "_SSD_0", dtype := "SolidStateDrive",
       capacity := cap, used := 0, free := cap } : DeviceState)
  let hddDev := fun (id : String) (cap : Nat) =>
    ({ device_id := id ++ "_HDD_0", dtype := "HardDiskDrive",
       capacity := cap, used := 0, free := cap } : DeviceState)
  let nodes :=
    ((List.range ssd_n).map (fun i =>
        mk "node_ssd_" i 0 [ssdDev ("node_ssd_" ++ Nat.repr i) capacity_bytes] [])) ++
    ((List.range hdd_n).map (fun i =>
        mk "node_hdd_" i 1 [] [hddDev ("node_hdd_" ++ Nat.repr i) capacity_bytes])) ++
    ((List.range mix_n).map (fun i =>
        mk "node_mix_" i 2
          [ssdDev ("node_mix_" ++ Nat.repr i) (capacity_bytes / 2)]
          [hddDev ("node_mix_" ++ Nat.repr i) (capacity_bytes - capacity_bytes / 2)]))
  let idx := RebuildIndex nodes
  { nodes := nodes, ssd_nodes := idx.1, hdd_nodes := idx.2.1,
    mix_nodes := idx.2.2, dirty := false }

/-- The `consume` lambda of `ApplyInode` (VirtualNodeLedger.cpp:301): walk the
device list, moving `min(free, remaining)` from free to used on each device
with nonzero free until `remaining` is exhausted.  `used + take` is 64-bit
arithmetic, hence the explicit `% 2 ^ 64`. -/
def consumeDevices : List DeviceState → Nat → List DeviceState × Nat
  | [], remaining => ([], remaining)
  | d :: ds, remaining =>
    if remaining = 0 then (d :: ds, remaining)
    else if d.free = 0 then
      let r := consumeDevices ds remaining
      (d :: r.1, r.2)
    else
      let take := if d.free < remaining then d.free else remaining
      let d := { d with free := d.free - take, used := (d.used + take) % 2 ^ 64 }
      let r := consumeDevices ds (remaining - take)
      (d :: r.1, r.2)

/-- `VirtualNodeLedger::ResolveNodeId` (VirtualNodeLedger.cpp:350). -/
def ResolveNodeId (l : VirtualNodeLedger) (idx ty : Nat) : String :=
  let list := if ty = 0 then l.ssd_nodes else if ty = 1 then l.hdd_nodes else l.mix_nodes
  let fromList :=
    if list.length ≠ 0 then
      if h : idx < list.length then
        if list.get ⟨idx, h⟩ ≠ "" then some (list.get ⟨idx, h⟩)
        else (list.filter (fun id => id ≠ "")).head?
      else (list.filter (fun id => id ≠ "")).head?
    else none
  match fromList with
  | some id => id
  | none =>
    match (l.nodes.filter (fun kv => kv.1 ≠ "")).head? with
    | some kv => kv.1
    | none => ""

/-- `VirtualNodeLedger::ApplyInode` (VirtualNodeLedger.cpp:280): resolve the
node from the location bit fields, then consume `getFileSize` bytes from its
devices — ssd then hdd for type 0, hdd then ssd for type 1, ssd then hdd for
type 2 and reserved — returning `remaining == 0` and setting the dirty flag
whenever anything was consumed. -/
def ApplyInode (l : VirtualNodeLedger) (i : Inode) : Bool × VirtualNodeLedger :=
  let ty := i.nodeType % 4
  let idx := i.nodeId
  let bytes := i.getFileSize
  let node_id := ResolveNodeId l idx ty
  if node_id = "" then (false, l)
  else if bytes = 0 then (true, l)
  else
    match lnodesFind l.nodes node_id with
    | none => (false, l)
    | some node =>
      let step :=
        if ty = 0 then
          let r1 := consumeDevices node.ssd_devices bytes
          let r2 := if r1.2 > 0 then consumeDevices node.hdd_devices r1.2
                    else (node.hdd_devices, r1.2)
          ({ node with ssd_devices := r1.1, hdd_devices := r2.1 }, r2.2)
        else if ty = 1 then
          let r1 := consumeDevices node.hdd_devices bytes
          let r2 := if r1.2 > 0 then consumeDevices node.ssd_devices r1.2
                    else (node.ssd_devices, r1.2)
          ({ node with hdd_devices := r1.1, ssd_devices := r2.1 }, r2.2)
        else
          let r1 := consumeDevices node.ssd_devices bytes
          let r2 := consumeDevices node.hdd_devices r1.2
          ({ node with ssd_devices := r1.1, hdd_devices := r2.1 }, r2.2)
      let l := { l with nodes := lnodesAssign l.nodes node_id step.1,
                        dirty := if step.2 ≠ bytes then true else l.dirty }
      (step.2 = 0, l)

/-! ## 7. Fd cache — src/storagenode/real_node/io/IOEngine.cpp

The C++ keeps an `unordered_map` keyed by `path#flags` plus an LRU list of
keys, maintained in lockstep; the model fuses them into one list of
`(key, entry)` pairs in LRU order, head = most recently used. -/

/-- Linux `O_*` flag bits used by `NormalizeFlags`. -/
def O_WRONLY : Nat := 1
/-- `O_RDWR` bit. -/
def O_RDWR : Nat := 2
/-- `O_CREAT` bit (octal 0100). -/
def O_CREAT : Nat := 64
/-- `O_DSYNC` bit (octal 010000). -/
def O_DSYNC : Nat := 4096
/-- `O_CLOEXEC` bit (octal 02000000). -/
def O_CLOEXEC : Nat := 2097152

/-- `IOEngine::FDEntry` (fd, writable, refcount); the LRU iterator lives in
the fused list position. -/
structure FDEntry where
  fd : Nat
  writable : Bool
  ref_count : Nat
deriving DecidableEq, Repr

/-- The fd-cache state: `(key, entry)` pairs in LRU order (head = most
recent), the `max_open_files` cap and the `sync_on_write` option. -/
structure FdCache where
  entries : List (String × FDEntry)
  max_open_files : Nat
  sync_on_write : Bool
deriving DecidableEq, Repr

/-- The `IOEngine` constructor (IOEngine.cpp:20): a zero cap is bumped to 1. -/
def FdCache.init (max_open_files : Nat) (sync_on_write : Bool) : FdCache :=
  { entries := [], max_open_files := if max_open_files = 0 then 1 else max_open_files,
    sync_on_write := sync_on_write }

/-- `IOEngine::NormalizeFlags` (IOEngine.cpp:38). -/
def NormalizeFlags (c : FdCache) (flags : Nat) (write_access : Bool) : Nat :=
  let f := if flags = 0 then (if write_access then O_WRONLY ||| O_CREAT else 0) else flags
  let f := if f &&& (O_WRONLY ||| O_RDWR) = 0 && write_access then f ||| O_WRONLY else f
  let f := if c.sync_on_write && write_access then f ||| O_DSYNC else f
  f ||| O_CLOEXEC

/-- `MakeKey` (IOEngine.cpp:14). -/
def MakeKey (path : String) (flags : Nat) : String :=
  path ++ "#" ++ Nat.repr flags

/-- The cache key of a `(path, flags)` pair: normalized flags without
`O_CREAT` (IOEngine.cpp:60). -/
def cacheKey (c : FdCache) (path : String) (flags : Nat) : String :=
  let write_access := flags &&& (O_WRONLY ||| O_RDWR) ≠ 0
  MakeKey path (NormalizeFlags c flags write_access &&& (2 ^ 64 - 1 - O_CREAT))

/-- Find the entry for a key. -/
def cacheFind : List (String × FDEntry) → String → Option FDEntry
  | [], _ => none
  | (k, e) :: rest, key => if k = key then some e else cacheFind rest key

/-- Remove a key (the map-erase half of eviction). -/
def cacheRemove : List (String × FDEntry) → String → List (String × FDEntry)
  | [], _ => []
  | (k, e) :: rest, key => if k = key then rest else (k, e) :: cacheRemove rest key

/-- Splice a key to the front of the LRU (the `lru_.splice` touch). -/
def cacheTouch (l : List (String × FDEntry)) (key : String) : List (String × FDEntry) :=
  match cacheFind l key with
  | none => l
  | some e => (key, e) :: cacheRemove l key

/-- Replace the entry stored under a key, keeping its position. -/
def cacheSet : List (String × FDEntry) → String → FDEntry → List (String × FDEntry)
  | [], _, _ => []
  | (k, e) :: rest, key, e2 =>
    if k = key then (k, e2) :: rest else (k, e) :: cacheSet rest key e2

/-- The loop body of `IOEngine::EvictIfNeeded` (IOEngine.cpp:119): while over
cap, look at the LRU tail; a tail entry with live references is spliced to
the front and the loop returns (it does not continue past it); a refcount-0
tail entry is closed and erased.  The fuel argument bounds the iteration
count; each looping iteration erases one entry, so fuel = list length is
always enough (the `it == fd_cache_.end()` branch of the C++ cannot arise:
the map and the LRU list hold exactly the same keys, which the fused model
makes intrinsic). -/
def evictLoop (max_open : Nat) : Nat → List (String × FDEntry) → List (String × FDEntry)
  | 0, l => l
  | Nat.succ fuel, l =>
    if l.length ≤ max_open then l
    else
      match l.getLast? with
      | none => l
      | some (k, e) =>
        if e.ref_count > 0 then (k, e) :: l.dropLast
        else evictLoop max_open fuel l.dropLast

/-- `IOEngine::EvictIfNeeded` (IOEngine.cpp:119). -/
def EvictIfNeeded (max_open : Nat) (l : List (String × FDEntry)) :
    List (String × FDEntry) :=
  evictLoop max_open l.length l

/-- `IOEngine::AcquireFd` (IOEngine.cpp:53).  `open_fd` is the outcome of the
`::open` call on a miss (`none` models a failing open).  Returns the fd
handed to the caller, or `none` on failure. -/
def AcquireFd (c : FdCache) (path : String) (flags : Nat) (open_fd : Option Nat) :
    Option Nat × FdCache :=
  let key := cacheKey c path flags
  match cacheFind c.entries key with
  | some e =>
    let entries := cacheTouch c.entries key
    let entries := cacheSet entries key { e with ref_count := e.ref_count + 1 }
    (some e.fd, { c with entries := entries })
  | none =>
    match open_fd with
    | none => (none, c)
    | some fd =>
      let write_access := flags &&& (O_WRONLY ||| O_RDWR) ≠ 0
      let entries := (key, ⟨fd, write_access, 1⟩) :: c.entries
      (some fd, { c with entries := EvictIfNeeded c.max_open_files entries })

/-- `IOEngine::ReleaseFd` (IOEngine.cpp:100): decrement the refcount (floored
at 0) and run eviction only when it reaches 0. -/
def ReleaseFd (c : FdCache) (path : String) (flags : Nat) : FdCache :=
  let key := cacheKey c path flags
  match cacheFind c.entries key with
  | none => c
  | some e =>
    let e := if e.ref_count > 0 then { e with ref_count := e.ref_count - 1 } else e
    let entries := cacheSet c.entries key e
    if e.ref_count = 0 then { c with entries := EvictIfNeeded c.max_open_files entries }
    else { c with entries := entries }

/-! ## 8. Virtual engine and dispatcher — src/srm/simulation/VirtualNodeEngine.cpp,
src/srm/gateway/RequestDispatcher.cpp -/

/-- CRC32C (Castagnoli) bit step: reflected polynomial 0x82F63B78. -/
def crc32cStepBit (crc : Nat) : Nat :=
  if crc % 2 = 1 then crc / 2 ^^^ 0x82F63B78 else crc / 2

/-- CRC32C per-byte step: xor the byte into the low bits, then eight bit
steps. -/
def crc32cStepByte (crc b : Nat) : Nat :=
  let crc := crc ^^^ (b % 256)
  crc32cStepBit (crc32cStepBit (crc32cStepBit (crc32cStepBit
    (crc32cStepBit (crc32cStepBit (crc32cStepBit (crc32cStepBit crc)))))))

/-- `butil::crc32c::Value`: CRC32C of a byte string (initial value all ones,
final complement). -/
def crc32c (data : List Nat) : Nat :=
  (data.foldl crc32cStepByte 0xFFFFFFFF) ^^^ 0xFFFFFFFF

/-- `SimulationConfig` (SimulationConfig.h).  The latency bounds only feed
the cooperative sleep, which has no observable effect on replies, and are
omitted.  `failure_rate` is the `double` field, modelled over `ℚ`. -/
structure SimulationConfig where
  failure_rate : ℚ
  default_read_size : Nat
deriving DecidableEq, Repr

/-- `VirtualNodeEngine::MaybeFail` (VirtualNodeEngine.cpp:54): `u` is the
uniform draw from `[0, 1)`; a draw below `failure_rate` overwrites the status
with `VirtualNodeError` / "simulated failure", otherwise the status is left
untouched. -/
def MaybeFail (cfg : SimulationConfig) (u : ℚ) (st : Status) : Status :=
  if u < cfg.failure_rate then SetStatus StatusCode.VirtualNodeError "simulated failure"
  else st

/-- `storagenode::WriteReply` as the dispatcher and engine fill it. -/
structure WriteReply where
  bytes_written : Nat
  status : Status
deriving DecidableEq, Repr

/-- `storagenode::ReadReply`. -/
structure ReadReply where
  bytes_read : Nat
  data : List Nat
  checksum : Nat
  status : Status
deriving DecidableEq, Repr

/-- `storagenode::TruncateReply`. -/
structure TruncateReply where
  status : Status
deriving DecidableEq, Repr

/-- `storagenode::WriteRequest` fields the virtual path reads. -/
structure WriteRequest where
  node_id : String
  data : List Nat
deriving DecidableEq, Repr

/-- `storagenode::ReadRequest` fields the virtual path reads. -/
structure ReadRequest where
  node_id : String
  length : Nat
deriving DecidableEq, Repr

/-- `storagenode::TruncateRequest` fields the virtual path reads. -/
structure TruncateRequest where
  node_id : String
  size : Nat
deriving DecidableEq, Repr

/-- `VirtualNodeEngine::SimulateWrite` (VirtualNodeEngine.cpp:19): on a
non-failing draw, sleep (no observable effect), checksum the payload for
work simulation (result discarded), and reply `bytes_written = len(data)`
with Success. -/
def SimulateWrite (cfg : SimulationConfig) (u : ℚ) (req : WriteRequest) : WriteReply :=
  let st := MaybeFail cfg u Status.default
  if st.code ≠ StatusCode.Success then { bytes_written := 0, status := st }
  else { bytes_written := req.data.length, status := SetStatus StatusCode.Success "" }

/-- `VirtualNodeEngine::SimulateRead` (VirtualNodeEngine.cpp:35): a reply of
`length` (or `default_read_size` when the request length is 0) zero bytes
with their CRC32C. -/
def SimulateRead (cfg : SimulationConfig) (u : ℚ) (req : ReadRequest) : ReadReply :=
  let st := MaybeFail cfg u Status.default
  if st.code ≠ StatusCode.Success then
    { bytes_read := 0, data := [], checksum := 0, status := st }
  else
    let len := if req.length > 0 then req.length else cfg.default_read_size
    let data := List.replicate len 0
    { bytes_read := len, data := data, checksum := crc32c data,
      status := SetStatus StatusCode.Success "" }

/-- Modelled from the spec: `VirtualNodeEngine::SimulateTruncate`.  The
declaration is in VirtualNodeEngine.h:19 but its body is not among the
sources; spec section 4.9 fixes the behavior — draw, fail with
`VirtualNodeError` "simulated failure" below the failure rate, otherwise
sleep and return OK with no side effect. -/
def SimulateTruncate (cfg : SimulationConfig) (u : ℚ) (_ : TruncateRequest) :
    TruncateReply :=
  let st := MaybeFail cfg u Status.default
  if st.code ≠ StatusCode.Success then { status := st }
  else { status := SetStatus StatusCode.Success "" }

/-- Outcome of a dispatch: the synchronous paths (validation failure and
virtual nodes) complete the caller closure with a reply; for a real node the
dispatcher issues an asynchronous RPC through the stub cache and the reply is
produced later by the completion object. -/
inductive DispatchOutcome (α : Type) where
  | completed (reply : α)
  | forwardedToRealNode
deriving DecidableEq, Repr

/-- The dispatcher state the claims observe: the optional manager (registry)
and the optional virtual engine with one failure draw per call. -/
structure Dispatcher where
  manager : Option Registry
  engine : Option SimulationConfig
deriving DecidableEq, Repr

/-- `RequestDispatcher::DispatchWrite` (RequestDispatcher.cpp:173): empty node
id → InvalidArgument before any registry access; unknown node → NodeNotFound;
virtual node → engine (or `VirtualNodeError` when absent); real node → async
RPC. -/
def DispatchWrite (d : Dispatcher) (u : ℚ) (req : WriteRequest) :
    DispatchOutcome WriteReply :=
  if req.node_id = "" then
    DispatchOutcome.completed
      { bytes_written := 0,
        status := SetStatus StatusCode.InvalidArgument "missing node_id" }
  else
    match d.manager.bind (fun reg => Registry.find reg req.node_id) with
    | none =>
      DispatchOutcome.completed
        { bytes_written := 0, status := SetStatus StatusCode.NodeNotFound "unknown node" }
    | some ctx =>
      if ctx.ntype = NodeType.Virtual then
        match d.engine with
        | none =>
          DispatchOutcome.completed
            { bytes_written := 0,
              status := SetStatus StatusCode.VirtualNodeError "virtual engine unavailable" }
        | some cfg => DispatchOutcome.completed (SimulateWrite cfg u req)
      else DispatchOutcome.forwardedToRealNode

/-- `RequestDispatcher::DispatchRead` (RequestDispatcher.cpp:228). -/
def DispatchRead (d : Dispatcher) (u : ℚ) (req : ReadRequest) :
    DispatchOutcome ReadReply :=
  if req.node_id = "" then
    DispatchOutcome.completed
      { bytes_read := 0, data := [], checksum := 0,
        status := SetStatus StatusCode.InvalidArgument "missing node_id" }
  else
    match d.manager.bind (fun reg => Registry.find reg req.node_id) with
    | none =>
      DispatchOutcome.completed
        { bytes_read := 0, data := [], checksum := 0,
          status := SetStatus StatusCode.NodeNotFound "unknown node" }
    | some ctx =>
      if ctx.ntype = NodeType.Virtual then
        match d.engine with
        | none =>
          DispatchOutcome.completed
            { bytes_read := 0, data := [], checksum := 0,
              status := SetStatus StatusCode.VirtualNodeError "virtual engine unavailable" }
        | some cfg => DispatchOutcome.completed (SimulateRead cfg u req)
      else DispatchOutcome.forwardedToRealNode

/-- `RequestDispatcher::DispatchTruncate` (RequestDispatcher.cpp:282). -/
def DispatchTruncate (d : Dispatcher) (u : ℚ) (req : TruncateRequest) :
    DispatchOutcome TruncateReply :=
  if req.node_id = "" then
    DispatchOutcome.completed
      { status := SetStatus StatusCode.InvalidArgument "missing node_id" }
  else
    match d.manager.bind (fun reg => Registry.find reg req.node_id) with
    | none =>
      DispatchOutcome.completed
        { status := SetStatus StatusCode.NodeNotFound "unknown node" }
    | some ctx =>
      if ctx.ntype = NodeType.Virtual then
        match d.engine with
        | none =>
          DispatchOutcome.completed
            { status := SetStatus StatusCode.VirtualNodeError "virtual engine unavailable" }
        | some cfg => DispatchOutcome.completed (SimulateTruncate cfg u req)
      else DispatchOutcome.forwardedToRealNode

/-! ## 9. Root lookup — src/mds/server/Server.cpp -/

/-- `Inode::Inode()` (inode.cpp:3): zero raw fields, empty strings and lists,
`namespace_id` 32 ASCII zeros.  The `InodeTimestamp()` constructor body is
not among the sources (it stamps the current wall time); `now` stands for its
result. -/
def defaultInode (now : InodeTimestamp) : Inode :=
  { location_raw := 0, block_id := 0, filename_len := 0, digest_len := 0,
    file_mode_raw := 0, file_size_raw := 0, inode := 0,
    namespace_id := List.replicate 32 48,
    fm_time := now, fa_time := now, im_time := now, fc_time := now,
    filename := [], digest := [], volume_id := [], block_segments := [] }

/-- `Inode::setFilename` (inode.cpp:47): stores the bytes and the (uint8,
truncating) length; stamps `im_time`. -/
def Inode.setFilenameF (i : Inode) (name : List Nat) (now : InodeTimestamp) : Inode :=
  { i with filename := name, filename_len := name.length % 256, im_time := now }

/-- `Inode::setFileType` (inode.cpp:57): low 4 bits of `file_mode.raw`. -/
def Inode.setFileTypeF (i : Inode) (ty : Nat) (now : InodeTimestamp) : Inode :=
  { i with file_mode_raw := i.file_mode_raw / 16 * 16 + ty % 16, im_time := now }

/-- `Inode::setFilePerm` (inode.cpp:62): `perm & 0x0FFF` into the high 12
bits of `file_mode.raw`. -/
def Inode.setFilePermF (i : Inode) (perm : Nat) (now : InodeTimestamp) : Inode :=
  { i with file_mode_raw := i.file_mode_raw % 16 + perm % 4096 * 16, im_time := now }

/-- `Inode::setFaTime` (inode.cpp:78). -/
def Inode.setFaTimeF (i : Inode) (t now : InodeTimestamp) : Inode :=
  { i with fa_time := t, im_time := now }

/-- `Inode::setFcTime` (inode.cpp:82). -/
def Inode.setFcTimeF (i : Inode) (t now : InodeTimestamp) : Inode :=
  { i with fc_time := t, im_time := now }

/-- Path-to-slot lookup in the in-memory `inode_table_`. -/
def tableFind : List (String × Nat) → String → Option Nat
  | [], _ => none
  | (k, v) :: rest, path => if k = path then some v else tableFind rest path

/-- The `MdsServer` state the root-lookup claims observe: the in-memory
`inode_table_`, slot reads through `InodeStorage` (`none` = failed
read/deserialize), the optional KV index of `MetadataManager`
(`get_inode_by_path`), and — for the allocator, whose `MetadataManager`
implementation is not among the sources — the allocator bitmap and slot
capacity. -/
structure MdsServer where
  inode_table : List (String × Nat)
  storage : Nat → Option Inode
  kv : String → Option Inode
  bitmap : Nat → Bool
  total_inodes : Nat

/-- `MdsServer::GetRootInode` (Server.cpp:463): the constant slot 2. -/
def GetRootInode : Nat := 2

/-- The `"/"` branch of `FindInodeByPath` (Server.cpp:412): a default
constructed inode that `read_inode(GetRootInode())` fills on success and
leaves untouched on failure. -/
def readOrDefault (srv : MdsServer) (now : InodeTimestamp) (slot : Nat) : Inode :=
  match srv.storage slot with
  | some i => i
  | none => defaultInode now

/-- `MdsServer::FindInodeByPath` (Server.cpp:404): reject non-absolute paths;
for `"/"` always read slot `GetRootInode()` (ignoring the table and whatever
slot the root actually lives in); otherwise in-memory table first (falling
through on a failed read), then the KV index. -/
def FindInodeByPath (srv : MdsServer) (now : InodeTimestamp) (path : String) :
    Option Inode :=
  if path.toList.head? ≠ some '/' then none
  else if path = "/" then some (readOrDefault srv now GetRootInode)
  else
    match tableFind srv.inode_table path with
    | some ino =>
      match srv.storage ino with
      | some i => some i
      | none => srv.kv path
    | none => srv.kv path

/-- `MdsServer::LookupIno` (Server.cpp:393): table hit, else
`FindInodeByPath`, else the sentinel `(uint64_t)-1`. -/
def LookupIno (srv : MdsServer) (now : InodeTimestamp) (path : String) : Nat :=
  match tableFind srv.inode_table path with
  | some ino => ino
  | none =>
    match FindInodeByPath srv now path with
    | some i => i.inode
    | none => 2 ^ 64 - 1

/-- Modelled from the spec: `MetadataManager::allocate_inode`.  The
`MetadataManager` sources are not in the repository snapshot (only callers
are); spec section 4.2 fixes the behavior — scan the bitmap for the first
clear bit, set it, return the slot index. -/
def allocate_inode (srv : MdsServer) : Option (Nat × MdsServer) :=
  match (List.range srv.total_inodes).find? (fun i => !srv.bitmap i) with
  | none => none
  | some ino =>
    some (ino, { srv with bitmap := fun j => if j = ino then true else srv.bitmap j })

/-- `MdsServer::CreateRoot` (Server.cpp:122): idempotent on the table; builds
the root inode through the setters, allocates a slot, writes the inode there
and registers `"/" → slot` in the table.  The `.`/`..` DirStore page and the
directory lock have no effect on the state observed here and are not
modelled. -/
def CreateRoot (srv : MdsServer) (now : InodeTimestamp) : Bool × MdsServer :=
  if (tableFind srv.inode_table "/").isSome then (true, srv)
  else
    let i := defaultInode now
    let i := i.setFilenameF [47] now
    let i := i.setFileTypeF 2 now
    let i := i.setFilePermF 0o755 now
    let i := i.setSizeUnitF 0 now
    let i := i.setFileSizeF 0 now
    let i := ((i.setFmTimeF now now).setFaTimeF now now).setFcTimeF now now
    match allocate_inode srv with
    | none => (false, srv)
    | some (ino, srv) =>
      let i := { i with inode := ino }
      let srv := { srv with
        storage := fun j => if j = ino then some i else srv.storage j,
        inode_table := ("/", ino) :: srv.inode_table }
      (true, srv)

/-- A small concrete inode exercising every field class (used to witness the
round-trip theorem). -/
def sampleInode : Inode :=
  { location_raw := 5, block_id := 7, filename_len := 2, digest_len := 1,
    file_mode_raw := 33, file_size_raw := 9, inode := 42,
    namespace_id := List.replicate 32 48,
    fm_time := ⟨24, 5, 17, 10, 30⟩, fa_time := ⟨24, 5, 17, 10, 31⟩,
    im_time := ⟨24, 5, 17, 10, 32⟩, fc_time := ⟨24, 5, 17, 10, 33⟩,
    filename := [97, 98], digest := [9], volume_id := [118],
    block_segments := [⟨0, 100, 3⟩] }

/-- A concrete inode whose volume id is 256 bytes: all length fields are
consistent, the serialized form is 327 bytes (within one 512-byte slot), yet
the one-byte length prefix wraps to 0 so deserialization goes astray. -/
def longVolumeInode : Inode :=
  { location_raw := 0, block_id := 0, filename_len := 0, digest_len := 0,
    file_mode_raw := 0, file_size_raw := 0, inode := 0,
    namespace_id := List.replicate 32 48,
    fm_time := ⟨0, 0, 0, 0, 0⟩, fa_time := ⟨0, 0, 0, 0, 0⟩,
    im_time := ⟨0, 0, 0, 0, 0⟩, fc_time := ⟨0, 0, 0, 0, 0⟩,
    filename := [], digest := [], volume_id := List.replicate 256 97,
    block_segments := [] }

/-- A one-slot store holding `sampleInode` at slot 1 (concrete instances for
the update-file-size theorems). -/
def c5store : Nat → Option Inode := fun j => if j = 1 then some sampleInode else none

/-- The fa-time sort key of a slot as the scan computes it (0 for a slot
whose read fails; such slots never enter the candidate vector). -/
def slotKey (st : InodeStore) (ino : Nat) : Nat :=
  match st.read_inode ino with
  | some di => inode_timestamp_key di.fa_time
  | none => 0

/-- Strict lexicographic order on (slot, key) candidate pairs: key first,
slot id as the tie breaker — the order a stable sort by key produces on a
slot-ordered input. -/
def lexLt (a b : Nat × Nat) : Prop := a.2 < b.2 ∨ (a.2 = b.2 ∧ a.1 < b.1)

/-- A two-slot store, both slots allocated with equal (zero) fa-time keys
(concrete instances for the cold-scan theorems). -/
def c4store : InodeStore :=
  { total_inodes := 2, allocated := fun _ => true,
    read_inode := fun _ => some (defaultInode ⟨0, 0, 0, 0, 0⟩) }

/-- Sum of the `free` counters of a device list. -/
def sumFree (ds : List DeviceState) : Nat := ds.foldr (fun d a => d.free + a) 0

/-- Sum of the `used` counters of a device list. -/
def sumUsed (ds : List DeviceState) : Nat := ds.foldr (fun d a => d.used + a) 0

/-- The per-device invariant of the spec (`used + free ≤ capacity`; `used ≥ 0`
holds by the `Nat` model) together with the 64-bit capacity bound the C++
types guarantee. -/
def DevOk (d : DeviceState) : Prop := d.used + d.free ≤ d.capacity ∧ d.capacity < 2 ^ 64

instance (d : DeviceState) : Decidable (DevOk d) := by unfold DevOk; infer_instance

/-- Per-node invariant: all devices satisfy `DevOk`. -/
def NodeOk (n : LedgerNode) : Prop :=
  (∀ d ∈ n.ssd_devices, DevOk d) ∧ (∀ d ∈ n.hdd_devices, DevOk d)

/-- Ledger-wide invariant. -/
def LedgerOk (l : VirtualNodeLedger) : Prop := ∀ kv ∈ l.nodes, NodeOk kv.2

/-- Total free bytes of a node across both device classes. -/
def nodeFree (n : LedgerNode) : Nat := sumFree n.ssd_devices + sumFree n.hdd_devices

/-- Total used bytes of a node across both device classes. -/
def nodeUsed (n : LedgerNode) : Nat := sumUsed n.ssd_devices + sumUsed n.hdd_devices

/-- The parsed JSON of the load counterexample: one SSD device with
`capacity 100`, `used_bytes 60`, `free_bytes 90`. -/
def c6json : List NodeJson :=
  [⟨"n1", 0, some [⟨"d1", "SolidStateDrive", 100, some 60, none, some 90, none⟩], none⟩]

instance (n : LedgerNode) : Decidable (NodeOk n) := by
  unfold NodeOk; infer_instance

instance (l : VirtualNodeLedger) : Decidable (LedgerOk l) := by
  unfold LedgerOk; infer_instance

/-- A zero inode addressed at SSD node index 0 with file_size field value 5
in bytes (raw 20 = 5 · 4), used to witness the ledger theorem. -/
def c6inode : Inode := { defaultInode ⟨0, 0, 0, 0, 0⟩ with file_size_raw := 20 }

/-- The single node of `InitEmpty 1 0 0 1000`. -/
def c6node : LedgerNode :=
  ⟨"node_ssd_0", 0, [⟨"node_ssd_0_SSD_0", "SolidStateDrive", 1000, 0, 1000⟩], []⟩

/-- The weakened over-cap condition the eviction actually guarantees: a cache
over its cap holds at least one entry with live references (not, as claimed,
only such entries — see the counterexample). -/
def CacheBusyOk (c : FdCache) : Prop :=
  c.max_open_files < c.entries.length → ∃ e ∈ c.entries, e.2.ref_count > 0

instance (c : FdCache) : Decidable (CacheBusyOk c) := by
  unfold CacheBusyOk; infer_instance

/-- Trace states for the fd-cache counterexample: cap 1; acquire "a", acquire
"b" (the busy tail "a" is rotated to the front), release "a". -/
def c7s1 : FdCache := (AcquireFd (FdCache.init 1 false) "a" 1 (some 3)).2

/-- Second trace state (after acquiring "b"). -/
def c7s2 : FdCache := (AcquireFd c7s1 "b" 1 (some 4)).2

/-- Third trace state (after releasing "a"). -/
def c7s3 : FdCache := ReleaseFd c7s2 "a" 1

/-- A virtual node context registered as "V" (concrete instance for the
dispatcher theorems). -/
def ctxV : NodeContext :=
  ⟨"V", "127.0.0.1", 7000, "vhost", NodeType.Virtual, NodeState.Online, 0⟩

/-- A dispatcher whose registry holds only the virtual node "V" and whose
engine never fails. -/
def d8 : Dispatcher := ⟨some [("V", ctxV)], some ⟨0, 4096⟩⟩

/-- An empty MDS state: no paths, no readable slots, no KV entries, an
all-clear 8-slot allocator bitmap. -/
def c10base : MdsServer := ⟨[], fun _ => none, fun _ => none, fun _ => false, 8⟩

/-- The fresh state after `CreateRoot` on `c10base` (the allocator hands out
slot 0). -/
def c10srv : MdsServer := (CreateRoot c10base ⟨0, 0, 0, 0, 0⟩).2

/-- A state whose table binds "/" to slot 5 while slot 2 holds `sampleInode`
(inode number 42), so the root-lookup divergence is observable. -/
def c10wit : MdsServer :=
  ⟨[("/", 5)], fun j => if j = 2 then some sampleInode else none,
   fun _ => none, fun _ => false, 8⟩

/-! ## Theorems -/

/-- `encLE` produces exactly `w` bytes. -/
theorem encLE_length (w x : Nat) : (encLE w x).length = w := by
  induction w generalizing x with
  | zero => simp [encLE]
  | succ w ih => simp [encLE, ih]

/-- Reading back `w` little-endian bytes of a value below `256 ^ w` restores
the value and leaves the rest of the buffer. -/
theorem readLE_encLE (w x : Nat) (r : List Nat) (h : x < 256 ^ w) :
    readLE w (encLE w x ++ r) = some (x, r) := by
  induction w generalizing x r with
  | zero =>
    simp [encLE, readLE]
    omega
  | succ w ih =>
    have hdiv : x / 256 < 256 ^ w := by
      rw [Nat.div_lt_iff_lt_mul (by norm_num : 0 < 256)]
      calc x < 256 ^ (w + 1) := h
      _ = 256 ^ w * 256 := by ring
    simp [encLE, readLE, ih (x / 256) r hdiv]
    omega

/-- Reading the length of a prefix splits the buffer at that prefix. -/
theorem readBytes_len_eq (n : Nat) (xs r : List Nat) (h : xs.length = n) :
    readBytes n (xs ++ r) = some (xs, r) := by
  subst h
  simp [readBytes, List.take_left, List.drop_left]

/-- A well-formed timestamp packs into 4 bytes. -/
theorem tsRaw_lt (t : InodeTimestamp) (h : t.WF) : t.raw < 256 ^ 4 := by
  obtain ⟨h1, h2, h3, h4, h5⟩ := h
  unfold InodeTimestamp.raw
  norm_num at *
  omega

/-- Unpacking the packed bit fields of a well-formed timestamp restores it. -/
theorem ofRaw_raw (t : InodeTimestamp) (h : t.WF) :
    InodeTimestamp.ofRaw t.raw = t := by
  obtain ⟨y, m, d, hh, mi⟩ := t
  obtain ⟨h1, h2, h3, h4, h5⟩ := h
  simp only [InodeTimestamp.ofRaw, InodeTimestamp.raw] at *
  norm_num at *
  refine ⟨by omega, by omega, by omega, by omega, by omega⟩

/-- One segment round-trips through its 24-byte encoding. -/
theorem readSeg_encSeg (s : BlockSegment) (r : List Nat) (h : s.WF) :
    readSeg (encSeg s ++ r) = some (s, r) := by
  obtain ⟨h1, h2, h3⟩ := h
  have e : (2 : Nat) ^ 64 = 256 ^ 8 := by norm_num
  rw [e] at h1 h2 h3
  simp only [encSeg, List.append_assoc, readSeg,
    readLE_encLE _ _ _ h1, readLE_encLE _ _ _ h2, readLE_encLE _ _ _ h3]

/-- The encoded segment list is 24 bytes per segment. -/
theorem encSegList_length (segs : List BlockSegment) :
    (encSegList segs).length = 24 * segs.length := by
  induction segs with
  | nil => simp [encSegList]
  | cons s rest ih => simp [encSegList, encSeg, encLE_length, ih]; ring

/-- The segment loop round-trips a well-formed segment list. -/
theorem readSegsCore_enc (segs : List BlockSegment) (r : List Nat)
    (h : ∀ s ∈ segs, s.WF) :
    readSegsCore segs.length (encSegList segs ++ r) = some (segs, r) := by
  induction segs generalizing r with
  | nil => simp [encSegList, readSegsCore]
  | cons s rest ih =>
    simp only [encSegList, List.append_assoc, List.length_cons, readSegsCore,
      readSeg_encSeg s _ (h s (by simp)),
      ih r (fun x hx => h x (by simp [hx]))]

/-- `readSegs` round-trips a well-formed segment list. -/
theorem readSegs_enc (segs : List BlockSegment) (r : List Nat)
    (h : ∀ s ∈ segs, s.WF) :
    readSegs segs.length (encSegList segs ++ r) = some (segs, r) := by
  unfold readSegs
  rw [if_pos, readSegsCore_enc segs r h]
  simp [encSegList_length]
  omega

/-- Normalization is the identity on 32-byte namespace ids. -/
theorem normalize_of_len32 (id : List Nat) (h : id.length = 32) :
    NormalizeNamespaceId id = id := by
  simp [NormalizeNamespaceId, h]

/-- C2 (amended): an inode with consistent length fields, a 32-byte namespace
id, a volume id of at most 255 bytes — the bound the one-byte length prefix
imposes, which the claim omitted — and a serialized form within one 512-byte
slot deserializes from its own serialization to an equal struct. -/
theorem C2_inode_serialize_roundtrip (i : Inode) (h : i.WF)
    (hfl : i.filename_len = i.filename.length)
    (hdl : i.digest_len = i.digest.length)
    (hns : i.namespace_id.length = 32)
    (hvol : i.volume_id.length ≤ 255)
    (_hslot : (Inode.serialize i).length ≤ 512) :
    Inode.deserialize (Inode.serialize i) = some i := by
  obtain ⟨h1, h2, h3, h4, h5, h6, h7, h8, h9, h10, h11, h12, h13, h14, h15, h16, h17⟩ := h
  have e16 : (2 : Nat) ^ 16 = 256 ^ 2 := by norm_num
  have e8 : (2 : Nat) ^ 8 = 256 ^ 1 := by norm_num
  have e64 : (2 : Nat) ^ 64 = 256 ^ 8 := by norm_num
  have e32 : (2 : Nat) ^ 32 = 256 ^ 4 := by norm_num
  rw [e16] at h1 h2 h5 h6
  rw [e8] at h3 h4
  rw [e64] at h7
  rw [e32] at h16
  have hvol256 : i.volume_id.length < 256 ^ 1 := by simpa using Nat.lt_succ_of_le hvol
  unfold Inode.serialize Inode.deserialize
  rw [normalize_of_len32 _ hns]
  simp only [List.append_assoc]
  simp only [readLE_encLE _ _ _ h1, readLE_encLE _ _ _ h2, readLE_encLE _ _ _ h3,
    readLE_encLE _ _ _ h4, readLE_encLE _ _ _ h5, readLE_encLE _ _ _ h6,
    readLE_encLE _ _ _ h7, readBytes_len_eq 32 _ _ hns,
    readLE_encLE _ _ _ (tsRaw_lt _ h9), readLE_encLE _ _ _ (tsRaw_lt _ h10),
    readLE_encLE _ _ _ (tsRaw_lt _ h11), readLE_encLE _ _ _ (tsRaw_lt _ h12),
    readBytes_len_eq _ _ _ hfl.symm, readBytes_len_eq _ _ _ hdl.symm,
    readLE_encLE _ _ _ hvol256, readBytes_len_eq _ _ _ rfl,
    readLE_encLE _ _ _ h16]
  rw [← List.append_nil (encSegList i.block_segments), readSegs_enc _ _ h17]
  simp only [ofRaw_raw _ h9, ofRaw_raw _ h10, ofRaw_raw _ h11, ofRaw_raw _ h12]

set_option maxRecDepth 40000 in
/-- C2 witness: the round-trip theorem applied to `sampleInode`. -/
theorem C2_inode_serialize_roundtrip_witness :
    sampleInode.WF ∧ sampleInode.filename_len = sampleInode.filename.length ∧
    sampleInode.digest_len = sampleInode.digest.length ∧
    sampleInode.namespace_id.length = 32 ∧ sampleInode.volume_id.length ≤ 255 ∧
    (Inode.serialize sampleInode).length ≤ 512 ∧
    Inode.deserialize (Inode.serialize sampleInode) = some sampleInode :=
  ⟨by decide, by decide, by decide, by decide, by decide, by decide,
   C2_inode_serialize_roundtrip sampleInode (by decide) (by decide) (by decide)
     (by decide) (by decide) (by decide)⟩

set_option maxRecDepth 40000 in
/-- C2 counterexample: `longVolumeInode` satisfies every hypothesis the claim
states — consistent length fields, 32-byte namespace id, serialized form of
327 bytes, well within one slot — yet deserializing its serialization fails:
the one-byte volume length prefix stores 256 mod 256 = 0, so the parser reads
an empty volume id and then a garbage segment count from the volume bytes.
The round-trip claim as stated is therefore false. -/
theorem C2_roundtrip_fails_on_long_volume_id :
    longVolumeInode.WF ∧
    longVolumeInode.filename_len = longVolumeInode.filename.length ∧
    longVolumeInode.digest_len = longVolumeInode.digest.length ∧
    longVolumeInode.namespace_id.length = 32 ∧
    (Inode.serialize longVolumeInode).length = 327 ∧
    Inode.deserialize (Inode.serialize longVolumeInode) = none := by
  refine ⟨by decide, by decide, by decide, by decide, by decide, by decide⟩

/-- Setting the size unit, the size value and then `fm_time` through the
inode setters stores exactly (unit, value) in the packed field and `now` in
`fm_time`. -/
theorem setSize_fields (i : Inode) (u v : Nat) (now : InodeTimestamp)
    (hu : u < 4) (hv : v < 16384) :
    (((i.setSizeUnitF u now).setFileSizeF v now).setFmTimeF now now).sizeUnit = u ∧
    (((i.setSizeUnitF u now).setFileSizeF v now).setFmTimeF now now).sizeValue = v ∧
    (((i.setSizeUnitF u now).setFileSizeF v now).setFmTimeF now now).fm_time = now := by
  simp only [Inode.setSizeUnitF, Inode.setFileSizeF, Inode.setFmTimeF,
    Inode.sizeUnit, Inode.sizeValue]
  refine ⟨by omega, by omega, by trivial⟩

/-- C5 (amended): for an existing inode at a nonzero slot (the handler
rejects inode number 0 as InvalidArgument) and any size up to 16383 GiB (the
largest any unit can represent; beyond it the GB value clamps), the update
stores the pair whose unit is the smallest in B/KB/MB/GB representing the
rounded-up size in 14 bits — the stored value is the rounded-up quotient, is
within 14 bits, and every smaller unit would overflow — refreshes `fm_time`,
and the decoded byte count is at least the requested size. -/
theorem C5_update_file_size (store : Nat → Option Inode) (ino n : Nat)
    (now : InodeTimestamp) (i : Inode)
    (hread : store ino = some i) (hino : ino ≠ 0)
    (hn : n ≤ 16383 * 2 ^ 30) :
    (UpdateFileSizeOp store ino n now).1.code = StatusCode.Success ∧
    ∃ i2, (UpdateFileSizeOp store ino n now).2 ino = some i2 ∧
      i2.fm_time = now ∧
      i2.sizeUnit ≤ 3 ∧
      i2.sizeValue = (n + (1024 ^ i2.sizeUnit - 1)) / 1024 ^ i2.sizeUnit ∧
      i2.sizeValue ≤ 16383 ∧
      (∀ u2 < i2.sizeUnit, 16383 < (n + (1024 ^ u2 - 1)) / 1024 ^ u2) ∧
      n ≤ i2.getFileSize := by
  unfold UpdateFileSizeOp
  rw [if_neg hino, hread]
  unfold encodeFileSizeFields
  by_cases hc1 : n ≤ 16383
  · rw [if_pos hc1]
    obtain ⟨e1, e2, e3⟩ := setSize_fields i 0 n now (by omega) (by omega)
    refine ⟨rfl, _, by simp, e3, by rw [e1]; omega, ?_, ?_, ?_, ?_⟩
    · rw [e1, e2]; norm_num
    · rw [e2]; omega
    · rw [e1]; omega
    · rw [Inode.getFileSize, e1, e2]; simp
  · rw [if_neg hc1]
    by_cases hc2 : n ≤ 16383 * 1024
    · rw [if_pos hc2]
      obtain ⟨e1, e2, e3⟩ := setSize_fields i 1 ((n + 1023) / 1024) now (by omega) (by omega)
      refine ⟨rfl, _, by simp, e3, by rw [e1]; omega, ?_, ?_, ?_, ?_⟩
      · rw [e1, e2]; norm_num
      · rw [e2]; omega
      · rw [e1]
        intro u2 hu2
        interval_cases u2
        norm_num
        omega
      · rw [Inode.getFileSize, e1, e2]; norm_num; omega
    · rw [if_neg hc2]
      by_cases hc3 : n ≤ 16383 * 1024 * 1024
      · rw [if_pos hc3]
        obtain ⟨e1, e2, e3⟩ := setSize_fields i 2 ((n + (1024 * 1024 - 1)) / (1024 * 1024)) now (by omega) (by omega)
        refine ⟨rfl, _, by simp, e3, by rw [e1]; omega, ?_, ?_, ?_, ?_⟩
        · rw [e1, e2]; norm_num
        · rw [e2]; omega
        · rw [e1]
          intro u2 hu2
          interval_cases u2
          · norm_num; omega
          · norm_num; omega
        · rw [Inode.getFileSize, e1, e2]; norm_num; omega
      · rw [if_neg hc3]
        dsimp only
        have hnw : (n + 1024 * 1024 * 1024 - 1) % 2 ^ 64 = n + 1024 * 1024 * 1024 - 1 :=
          Nat.mod_eq_of_lt (by omega)
        have hv0 : ¬ 16383 < (n + 1024 * 1024 * 1024 - 1) % 2 ^ 64 / (1024 * 1024 * 1024) := by
          rw [hnw]; omega
        rw [if_neg hv0]
        obtain ⟨e1, e2, e3⟩ := setSize_fields i 3 ((n + 1024 * 1024 * 1024 - 1) % 2 ^ 64 / (1024 * 1024 * 1024)) now (by omega) (by rw [hnw]; omega)
        refine ⟨rfl, _, by simp, e3, by rw [e1], ?_, ?_, ?_, ?_⟩
        · rw [e1, e2, hnw]; try norm_num
        · rw [e2, hnw]; omega
        · rw [e1]
          intro u2 hu2
          interval_cases u2
          · norm_num; omega
          · norm_num; omega
          · norm_num; omega
        · rw [Inode.getFileSize, e1, e2, hnw]; norm_num; omega


/-- C5 witness: the update theorem applied to slot 1 of `c5store` with
n = 5000. -/
theorem C5_update_file_size_witness :
    c5store 1 = some sampleInode ∧ (1 : Nat) ≠ 0 ∧
    (5000 : Nat) ≤ 16383 * 2 ^ 30 ∧
    ((UpdateFileSizeOp c5store 1 5000 ⟨1, 2, 3, 4, 5⟩).1.code = StatusCode.Success ∧
     ∃ i2, (UpdateFileSizeOp c5store 1 5000 ⟨1, 2, 3, 4, 5⟩).2 1 = some i2 ∧
       i2.fm_time = ⟨1, 2, 3, 4, 5⟩ ∧
       i2.sizeUnit ≤ 3 ∧
       i2.sizeValue = (5000 + (1024 ^ i2.sizeUnit - 1)) / 1024 ^ i2.sizeUnit ∧
       i2.sizeValue ≤ 16383 ∧
       (∀ u2 < i2.sizeUnit, 16383 < (5000 + (1024 ^ u2 - 1)) / 1024 ^ u2) ∧
       5000 ≤ i2.getFileSize) :=
  ⟨by decide, by decide, by decide,
   C5_update_file_size c5store 1 5000 ⟨1, 2, 3, 4, 5⟩ sampleInode
     (by decide) (by decide) (by decide)⟩

set_option maxRecDepth 40000 in
/-- C5 counterexample: at n = 16384 GiB (one GiB beyond the 14-bit GB
capacity) the GB value clamps to 16383, so the stored pair decodes to
16383 GiB, strictly below n — the claimed "decoded byte count ≥ n" fails.
The inode at slot 1 exists and the operation still reports Success. -/
theorem C5_clamps_beyond_16383_gb :
    ((UpdateFileSizeOp c5store 1 (16384 * 2 ^ 30) ⟨0, 0, 0, 0, 0⟩).2 1).map
        Inode.getFileSize = some (16383 * 2 ^ 30) ∧
    16383 * 2 ^ 30 < 16384 * 2 ^ 30 ∧
    (UpdateFileSizeOp c5store 1 (16384 * 2 ^ 30) ⟨0, 0, 0, 0, 0⟩).1.code =
      StatusCode.Success := by
  decide

/-- A pair is a cold-scan candidate exactly when its slot is an allocated,
readable slot below capacity and its key is that slot’s key. -/
theorem mem_coldVec (st : InodeStore) (p : Nat × Nat) :
    p ∈ coldVec st ↔
      p.1 < st.total_inodes ∧ st.allocated p.1 = true ∧
      (st.read_inode p.1).isSome ∧ p.2 = slotKey st p.1 := by
  unfold coldVec slotKey
  rw [List.mem_filterMap]
  constructor
  · rintro ⟨a, ha, hfa⟩
    rw [List.mem_range] at ha
    by_cases hal : st.allocated a
    · rw [if_pos hal] at hfa
      cases hr : st.read_inode a with
      | none => rw [hr] at hfa; simp at hfa
      | some di =>
        rw [hr] at hfa
        simp at hfa
        subst hfa
        simp_all [hr, slotKey]
    · rw [if_neg hal] at hfa; simp at hfa
  · rintro ⟨hlt, hal, hsome, hkey⟩
    refine ⟨p.1, List.mem_range.mpr hlt, ?_⟩
    rw [if_pos hal]
    cases hr : st.read_inode p.1 with
    | none => rw [hr] at hsome; simp at hsome
    | some di =>
      rw [hr] at hkey
      simp at hkey
      simp only [hr]
      rw [← hkey]

/-- The candidate vector is built in strictly increasing slot order. -/
theorem coldVec_pairwise (st : InodeStore) :
    List.Pairwise (fun a b => a.1 < b.1) (coldVec st) := by
  unfold coldVec
  rw [List.pairwise_filterMap]
  have := List.pairwise_lt_range st.total_inodes
  refine this.imp ?_
  intro a b hab x hx y hy
  by_cases hal : st.allocated a
  · rw [if_pos hal] at hx
    by_cases hbl : st.allocated b
    · rw [if_pos hbl] at hy
      cases hr : st.read_inode a with
      | none => rw [hr] at hx; simp at hx
      | some di =>
        cases hs : st.read_inode b with
        | none => rw [hs] at hy; simp at hy
        | some dj =>
          rw [hr] at hx; rw [hs] at hy
          simp at hx hy
          rw [← hx, ← hy]
          exact hab
    · rw [if_neg hbl] at hy; simp at hy
  · rw [if_neg hal] at hx; simp at hx

/-- Ordered insertion of a pair whose slot id is below every slot id in a
lexicographically sorted list keeps the list lexicographically sorted. -/
theorem pairwise_lex_orderedInsert (a : Nat × Nat) (l : List (Nat × Nat))
    (hl : List.Pairwise lexLt l) (ha : ∀ b ∈ l, a.1 < b.1) :
    List.Pairwise lexLt (List.orderedInsert keyLe a l) := by
  induction l with
  | nil => simp [List.orderedInsert]
  | cons b t ih =>
    rw [List.orderedInsert]
    by_cases hab : keyLe a b
    · rw [if_pos hab]
      rw [List.pairwise_cons]
      refine ⟨?_, hl⟩
      intro c hc
      rw [List.mem_cons] at hc
      rcases hc with hc | hc
      · subst hc
        rcases Nat.lt_or_ge a.2 c.2 with h | h
        · exact Or.inl h
        · exact Or.inr ⟨Nat.le_antisymm hab h, ha c (by simp)⟩
      · have hbc := (List.pairwise_cons.mp hl).1 c hc
        rcases hbc with hbc | hbc
        · rcases Nat.lt_or_ge a.2 c.2 with h | h
          · exact Or.inl h
          · exact absurd (Nat.lt_of_le_of_lt (Nat.le_trans h hab) hbc) (Nat.lt_irrefl _)
        · rcases Nat.lt_or_ge a.2 c.2 with h | h
          · exact Or.inl h
          · exact Or.inr ⟨Nat.le_antisymm (Nat.le_trans hab (Nat.le_of_eq hbc.1)) h,
              ha c (List.mem_cons_of_mem b hc)⟩
    · rw [if_neg hab]
      rw [List.pairwise_cons]
      have hba : b.2 < a.2 := by
        unfold keyLe at hab
        omega
      refine ⟨?_, ih (List.pairwise_cons.mp hl).2 (fun c hc => ha c (List.mem_cons_of_mem b hc))⟩
      intro c hc
      rw [List.mem_orderedInsert] at hc
      rcases hc with hc | hc
      · subst hc
        exact Or.inl hba
      · exact (List.pairwise_cons.mp hl).1 c hc
/-- Stability: sorting a slot-ordered candidate list by key with the stable
insertion sort yields a list sorted by (key, slot) lexicographically. -/
theorem pairwise_lex_insertionSort (l : List (Nat × Nat))
    (hl : List.Pairwise (fun a b => a.1 < b.1) l) :
    List.Pairwise lexLt (List.insertionSort keyLe l) := by
  induction l with
  | nil => simp [List.insertionSort]
  | cons a t ih =>
    rw [List.insertionSort]
    apply pairwise_lex_orderedInsert
    · exact ih (List.pairwise_cons.mp hl).2
    · intro b hb
      have hmem : b ∈ t := (List.perm_insertionSort keyLe t).subset hb
      exact (List.pairwise_cons.mp hl).1 b hmem

/-- When every allocated slot reads back, the candidate vector has exactly
one entry per allocated slot. -/
theorem coldVec_length (st : InodeStore)
    (hreads : ∀ ino < st.total_inodes, st.allocated ino = true →
      (st.read_inode ino).isSome) :
    (coldVec st).length =
      ((List.range st.total_inodes).filter (fun i => st.allocated i)).length := by
  unfold coldVec
  have aux : ∀ l : List Nat,
      (∀ i ∈ l, st.allocated i = true → (st.read_inode i).isSome) →
      (l.filterMap (fun ino =>
        if st.allocated ino then
          match st.read_inode ino with
          | some di => some (ino, inode_timestamp_key di.fa_time)
          | none => none
        else none)).length = (l.filter (fun i => st.allocated i)).length := by
    intro l
    induction l with
    | nil => intro _; simp
    | cons i t ih =>
      intro hl
      rw [List.filterMap_cons, List.filter_cons]
      by_cases hal : st.allocated i
      · have hsome := hl i (by simp) hal
        cases hr : st.read_inode i with
        | none => rw [hr] at hsome; simp at hsome
        | some di =>
          simp [hal, hr, ih (fun j hj => hl j (by simp [hj]))]
      · simp [hal]
        exact ih (fun j hj => hl j (by simp [hj]))
  exact aux (List.range st.total_inodes) (fun i hi => hreads i (List.mem_range.mp hi))

/-- `log2fuel` with enough fuel brackets its argument between consecutive
powers of two. -/
theorem log2fuel_spec : ∀ (fuel n : Nat), 1 ≤ n → n ≤ fuel →
    2 ^ log2fuel fuel n ≤ n ∧ n < 2 ^ (log2fuel fuel n + 1) := by
  intro fuel
  induction fuel with
  | zero => intro n h1 h2; omega
  | succ f ih =>
    intro n h1 h2
    rw [log2fuel]
    by_cases hle : n ≤ 1
    · rw [if_pos hle]
      constructor
      · simpa using h1
      · have hn1 : n = 1 := by omega
        rw [hn1]
        norm_num
    · rw [if_neg hle]
      obtain ⟨ha, hb⟩ := ih (n / 2) (by omega) (by omega)
      have e1 : 2 ^ (log2fuel f (n / 2) + 1) = 2 ^ log2fuel f (n / 2) * 2 := pow_succ 2 _
      have e2 : 2 ^ (log2fuel f (n / 2) + 1 + 1) = 2 ^ (log2fuel f (n / 2) + 1) * 2 :=
        pow_succ 2 _
      omega

/-- `natLog2` brackets any positive `n` between consecutive powers of two. -/
theorem natLog2_spec (n : Nat) (h : 1 ≤ n) :
    2 ^ natLog2 n ≤ n ∧ n < 2 ^ (natLog2 n + 1) :=
  log2fuel_spec n n h (Nat.le_refl n)

/-- Powers of two over `ℚ` are monotone in an integer exponent. -/
theorem two_zpow_mono {a b : ℤ} (h : a ≤ b) : (2 : ℚ) ^ a ≤ 2 ^ b := by
  have hsplit : (2 : ℚ) ^ b = 2 ^ a * 2 ^ (b - a) := by
    rw [← zpow_add₀ (by norm_num : (2 : ℚ) ≠ 0)]
    congr 1
    ring
  obtain ⟨c, hc⟩ := Int.eq_ofNat_of_zero_le (by omega : (0 : ℤ) ≤ b - a)
  have hone : (1 : ℚ) ≤ 2 ^ (b - a) := by
    rw [hc, zpow_natCast]
    exact_mod_cast Nat.one_le_two_pow
  have hpos : (0 : ℚ) < 2 ^ a := by positivity
  calc (2 : ℚ) ^ a = 2 ^ a * 1 := (mul_one _).symm
  _ ≤ 2 ^ a * 2 ^ (b - a) := mul_le_mul_of_nonneg_left hone (le_of_lt hpos)
  _ = 2 ^ b := hsplit.symm

/-- `ratLog2` brackets any positive rational between consecutive powers of
two. -/
theorem ratLog2_spec (q : ℚ) (hq : 0 < q) :
    (2 : ℚ) ^ ratLog2 q ≤ q ∧ q < 2 ^ (ratLog2 q + 1) := by
  unfold ratLog2
  by_cases h1 : 1 ≤ q
  · rw [if_pos h1]
    have hfl : 1 ≤ ⌊q⌋₊ := Nat.le_floor (by exact_mod_cast h1)
    obtain ⟨hlo, hhi⟩ := natLog2_spec ⌊q⌋₊ hfl
    constructor
    · rw [zpow_natCast]
      calc ((2 : ℚ) ^ natLog2 ⌊q⌋₊) ≤ (⌊q⌋₊ : ℚ) := by exact_mod_cast hlo
      _ ≤ q := Nat.floor_le (le_of_lt hq)
    · rw [show (natLog2 ⌊q⌋₊ : ℤ) + 1 = ((natLog2 ⌊q⌋₊ + 1 : ℕ) : ℤ) by push_cast; ring,
        zpow_natCast]
      calc q < (⌊q⌋₊ : ℚ) + 1 := Nat.lt_floor_add_one q
      _ ≤ 2 ^ (natLog2 ⌊q⌋₊ + 1) := by exact_mod_cast Nat.succ_le_of_lt hhi
  · rw [if_neg h1]
    push_neg at h1
    dsimp only
    have hr0 : (0 : ℚ) < 1 / q := by positivity
    have hr1 : 1 < 1 / q := by
      rw [lt_div_iff hq]
      linarith
    have hfl : 1 ≤ ⌊1 / q⌋₊ := Nat.le_floor (by exact_mod_cast le_of_lt hr1)
    obtain ⟨hlo, hhi⟩ := natLog2_spec ⌊1 / q⌋₊ hfl
    have hrlo : (2 : ℚ) ^ natLog2 ⌊1 / q⌋₊ ≤ 1 / q :=
      le_trans (by exact_mod_cast hlo) (Nat.floor_le (le_of_lt hr0))
    have hrhi : 1 / q < 2 ^ (natLog2 ⌊1 / q⌋₊ + 1) :=
      lt_of_lt_of_le (Nat.lt_floor_add_one _) (by exact_mod_cast Nat.succ_le_of_lt hhi)
    by_cases hcase : 1 / q ≤ 2 ^ natLog2 ⌊1 / q⌋₊
    · rw [if_pos hcase]
      have hreq : 1 / q = 2 ^ natLog2 ⌊1 / q⌋₊ := le_antisymm hcase hrlo
      have hq' : q = (2 : ℚ) ^ (-(natLog2 ⌊1 / q⌋₊ : ℤ)) := by
        rw [zpow_neg, zpow_natCast, ← hreq, one_div, inv_inv]
      constructor
      · conv_rhs => rw [hq']
      · conv_lhs => rw [hq']
        have hsplit : (2 : ℚ) ^ (-(natLog2 ⌊1 / q⌋₊ : ℤ) + 1) =
            2 ^ (-(natLog2 ⌊1 / q⌋₊ : ℤ)) * 2 :=
          zpow_add_one₀ (by norm_num : (2 : ℚ) ≠ 0) _
        have hppos : (0 : ℚ) < 2 ^ (-(natLog2 ⌊1 / q⌋₊ : ℤ)) := by positivity
        rw [hsplit]
        linarith
    · rw [if_neg hcase]
      push_neg at hcase
      constructor
      · have hpow : (2 : ℚ) ^ (-((natLog2 ⌊1 / q⌋₊ : ℤ) + 1)) =
            1 / 2 ^ (natLog2 ⌊1 / q⌋₊ + 1) := by
          rw [show (natLog2 ⌊1 / q⌋₊ : ℤ) + 1 = ((natLog2 ⌊1 / q⌋₊ + 1 : ℕ) : ℤ) by
            push_cast; ring, zpow_neg, zpow_natCast]
          exact (one_div _).symm
        rw [hpow, div_le_iff (by positivity)]
        have hieq := (div_lt_iff hq).mp hrhi
        rw [mul_comm]
        linarith
      · have hexp : -((natLog2 ⌊1 / q⌋₊ : ℤ) + 1) + 1 = -(natLog2 ⌊1 / q⌋₊ : ℤ) := by
          ring
        rw [hexp, zpow_neg, zpow_natCast, ← one_div, lt_div_iff (by positivity)]
        have hieq := (lt_div_iff hq).mp hcase
        rw [mul_comm]
        linarith

/-- Half-even rounding is within 1/2 of its argument. -/
theorem roundHalfEven_err (x : ℚ) : |(roundHalfEven x : ℚ) - x| ≤ 1 / 2 := by
  unfold roundHalfEven
  dsimp only
  have hfl := Int.floor_le x
  have hfu := Int.lt_floor_add_one x
  by_cases h1 : x - (⌊x⌋ : ℚ) < 1 / 2
  · rw [if_pos h1, abs_le]
    constructor <;> linarith
  · rw [if_neg h1]
    push_neg at h1
    by_cases h2 : (1 : ℚ) / 2 < x - (⌊x⌋ : ℚ)
    · rw [if_pos h2, abs_le]
      push_cast
      constructor <;> linarith
    · rw [if_neg h2]
      push_neg at h2
      by_cases h3 : ⌊x⌋ % 2 = 0
      · rw [if_pos h3, abs_le]
        constructor <;> linarith
      · rw [if_neg h3, abs_le]
        push_cast
        constructor <;> linarith

/-- Half-even rounding is exact on integers. -/
theorem roundHalfEven_intCast (n : ℤ) : roundHalfEven ((n : ℚ)) = n := by
  unfold roundHalfEven
  dsimp only
  rw [Int.floor_intCast]
  rw [if_pos (by rw [sub_self]; norm_num)]

/-- `roundDouble` has relative error at most `2⁻⁵³` on positive inputs. -/
theorem roundDouble_bounds (q : ℚ) (hq : 0 < q) :
    q * (1 - 1 / 2 ^ 53) ≤ roundDouble q ∧ roundDouble q ≤ q * (1 + 1 / 2 ^ 53) := by
  unfold roundDouble
  rw [if_neg (not_le.mpr hq)]
  dsimp only
  have h2 : (0 : ℚ) < 2 ^ (ratLog2 q - 52) := by positivity
  have herr := roundHalfEven_err (q / 2 ^ (ratLog2 q - 52))
  rw [abs_le] at herr
  have hlog := (ratLog2_spec q hq).1
  have hpow : (2 : ℚ) ^ (ratLog2 q - 52) * 2 ^ (52 : ℕ) = 2 ^ ratLog2 q := by
    rw [← zpow_natCast (2 : ℚ) 52, ← zpow_add₀ (by norm_num : (2 : ℚ) ≠ 0)]
    congr 1
    push_cast
    ring
  have hbound : (2 : ℚ) ^ (ratLog2 q - 52) ≤ q / 2 ^ (52 : ℕ) := by
    rw [le_div_iff (by positivity), hpow]
    exact hlog
  have hqe : q / 2 ^ (ratLog2 q - 52) * 2 ^ (ratLog2 q - 52) = q :=
    div_mul_cancel₀ q (ne_of_gt h2)
  have hlo : (q / 2 ^ (ratLog2 q - 52) - 1 / 2) * 2 ^ (ratLog2 q - 52) ≤
      ((roundHalfEven (q / 2 ^ (ratLog2 q - 52)) : ℤ) : ℚ) * 2 ^ (ratLog2 q - 52) := by
    apply mul_le_mul_of_nonneg_right _ (le_of_lt h2)
    linarith [herr.1]
  have hhi : ((roundHalfEven (q / 2 ^ (ratLog2 q - 52)) : ℤ) : ℚ) * 2 ^ (ratLog2 q - 52) ≤
      (q / 2 ^ (ratLog2 q - 52) + 1 / 2) * 2 ^ (ratLog2 q - 52) := by
    apply mul_le_mul_of_nonneg_right _ (le_of_lt h2)
    linarith [herr.2]
  rw [sub_mul, hqe] at hlo
  rw [add_mul, hqe] at hhi
  constructor
  · linarith [hbound, hlo]
  · linarith [hbound, hhi]

/-- `roundDouble` is exact on positive rationals with at most 53 significant
bits — in particular on small integers and dyadics such as 1/2. -/
theorem roundDouble_exact (q : ℚ) (m : ℕ) (k : ℤ) (hm : 0 < m) (hlt : m < 2 ^ 53)
    (hq : q = (m : ℚ) * 2 ^ k) : roundDouble q = q := by
  have hmq : (0 : ℚ) < (m : ℚ) := by exact_mod_cast hm
  have hqpos : 0 < q := by
    rw [hq]
    positivity
  unfold roundDouble
  rw [if_neg (not_le.mpr hqpos)]
  dsimp only
  obtain ⟨hlogle, hloglt⟩ := ratLog2_spec q hqpos
  set L : ℤ := ratLog2 q with hL
  have hkle : k ≤ L := by
    by_contra hcon
    push_neg at hcon
    have h1 : (2 : ℚ) ^ (L + 1) ≤ 2 ^ k := two_zpow_mono (by omega)
    have hpk : (0 : ℚ) < 2 ^ k := by positivity
    have h2 : (2 : ℚ) ^ k ≤ q := by
      rw [hq]
      calc (2 : ℚ) ^ k = 1 * 2 ^ k := (one_mul _).symm
      _ ≤ (m : ℚ) * 2 ^ k :=
          mul_le_mul_of_nonneg_right (by exact_mod_cast hm) (le_of_lt hpk)
    linarith [hloglt]
  have hkge : L ≤ k + 52 := by
    by_contra hcon
    push_neg at hcon
    have h1 : (2 : ℚ) ^ (k + 53) ≤ 2 ^ L := two_zpow_mono (by omega)
    have h2 : q < 2 ^ (k + 53) := by
      rw [hq]
      have hmlt : (m : ℚ) < 2 ^ (53 : ℕ) := by exact_mod_cast hlt
      have hsplit : (2 : ℚ) ^ (k + 53) = 2 ^ (53 : ℕ) * 2 ^ k := by
        rw [← zpow_natCast (2 : ℚ) 53, ← zpow_add₀ (by norm_num : (2 : ℚ) ≠ 0)]
        congr 1
        push_cast
        ring
      rw [hsplit]
      have hpk : (0 : ℚ) < 2 ^ k := by positivity
      exact mul_lt_mul_of_pos_right hmlt hpk
    linarith [hlogle]
  have hke : 0 ≤ k - (L - 52) := by omega
  have hscaled : q / 2 ^ (L - 52) =
      (((m * 2 ^ (k - (L - 52)).toNat : ℕ) : ℤ) : ℚ) := by
    have hpe : (0 : ℚ) < 2 ^ (L - 52) := by positivity
    rw [div_eq_iff (ne_of_gt hpe), hq]
    push_cast
    rw [← zpow_natCast (2 : ℚ) ((k - (L - 52)).toNat), Int.toNat_of_nonneg hke]
    rw [mul_assoc, ← zpow_add₀ (by norm_num : (2 : ℚ) ≠ 0)]
    rw [show k - (L - 52) + (L - 52) = k by ring]
  rw [hscaled, roundHalfEven_intCast, ← hscaled]
  exact div_mul_cancel₀ q (by positivity)

/-- The binary64 evaluation of `(percent / 100.0) * (double)total` lies
within relative error `2⁻⁵⁰` of the exact product: division, conversion and
multiplication each contribute at most one half-ulp. -/
theorem roundDouble_prod_window (p : ℚ) (N : ℕ) (hp : 0 < p) (hN : 0 < N) :
    p / 100 * (N : ℚ) * (1 - 1 / 2 ^ 50) ≤
      roundDouble (roundDouble (p / 100) * roundDouble ((N : ℚ))) ∧
    roundDouble (roundDouble (p / 100) * roundDouble ((N : ℚ))) ≤
      p / 100 * (N : ℚ) * (1 + 1 / 2 ^ 50) := by
  have hq1 : (0 : ℚ) < p / 100 := by positivity
  have hqN : (0 : ℚ) < (N : ℚ) := by exact_mod_cast hN
  obtain ⟨a1, a2⟩ := roundDouble_bounds (p / 100) hq1
  obtain ⟨b1, b2⟩ := roundDouble_bounds (N : ℚ) hqN
  have hd1pos : 0 < roundDouble (p / 100) :=
    lt_of_lt_of_le (mul_pos hq1 (by norm_num : (0 : ℚ) < 1 - 1 / 2 ^ 53)) a1
  have hNdpos : 0 < roundDouble ((N : ℚ)) :=
    lt_of_lt_of_le (mul_pos hqN (by norm_num : (0 : ℚ) < 1 - 1 / 2 ^ 53)) b1
  obtain ⟨c1, c2⟩ := roundDouble_bounds (roundDouble (p / 100) * roundDouble ((N : ℚ)))
    (mul_pos hd1pos hNdpos)
  have hx : (0 : ℚ) < p / 100 * (N : ℚ) := mul_pos hq1 hqN
  constructor
  · have s1 : p / 100 * (1 - 1 / 2 ^ 53) * ((N : ℚ) * (1 - 1 / 2 ^ 53)) ≤
        roundDouble (p / 100) * roundDouble ((N : ℚ)) :=
      mul_le_mul a1 b1
        (mul_nonneg (le_of_lt hqN) (by norm_num)) (le_of_lt hd1pos)
    have s2 : p / 100 * (1 - 1 / 2 ^ 53) * ((N : ℚ) * (1 - 1 / 2 ^ 53)) * (1 - 1 / 2 ^ 53) ≤
        roundDouble (p / 100) * roundDouble ((N : ℚ)) * (1 - 1 / 2 ^ 53) :=
      mul_le_mul_of_nonneg_right s1 (by norm_num)
    have s3 := le_trans s2 c1
    have heq : p / 100 * (1 - 1 / 2 ^ 53) * ((N : ℚ) * (1 - 1 / 2 ^ 53)) * (1 - 1 / 2 ^ 53) =
        p / 100 * (N : ℚ) * ((1 - 1 / 2 ^ 53) * (1 - 1 / 2 ^ 53) * (1 - 1 / 2 ^ 53)) := by
      ring
    rw [heq] at s3
    have hcube : (1 - 1 / 2 ^ 50 : ℚ) ≤ (1 - 1 / 2 ^ 53) * (1 - 1 / 2 ^ 53) * (1 - 1 / 2 ^ 53) := by
      norm_num
    have := mul_le_mul_of_nonneg_left hcube (le_of_lt hx)
    linarith
  · have s1 : roundDouble (p / 100) * roundDouble ((N : ℚ)) ≤
        p / 100 * (1 + 1 / 2 ^ 53) * ((N : ℚ) * (1 + 1 / 2 ^ 53)) :=
      mul_le_mul a2 b2 (le_of_lt hNdpos)
        (mul_nonneg (le_of_lt hq1) (by norm_num))
    have s2 : roundDouble (p / 100) * roundDouble ((N : ℚ)) * (1 + 1 / 2 ^ 53) ≤
        p / 100 * (1 + 1 / 2 ^ 53) * ((N : ℚ) * (1 + 1 / 2 ^ 53)) * (1 + 1 / 2 ^ 53) :=
      mul_le_mul_of_nonneg_right s1 (by norm_num)
    have s3 := le_trans c2 s2
    have heq : p / 100 * (1 + 1 / 2 ^ 53) * ((N : ℚ) * (1 + 1 / 2 ^ 53)) * (1 + 1 / 2 ^ 53) =
        p / 100 * (N : ℚ) * ((1 + 1 / 2 ^ 53) * (1 + 1 / 2 ^ 53) * (1 + 1 / 2 ^ 53)) := by
      ring
    rw [heq] at s3
    have hcube : ((1 + 1 / 2 ^ 53 : ℚ)) * (1 + 1 / 2 ^ 53) * (1 + 1 / 2 ^ 53) ≤
        1 + 1 / 2 ^ 50 := by
      norm_num
    have := mul_le_mul_of_nonneg_left hcube (le_of_lt hx)
    linarith

/-- Every slot id taken from the front of the key-sorted vector has key at
most that of any allocated, readable slot left out of the take. -/
theorem coldTake_dominance (st : InodeStore) (k : Nat)
    (hreads : ∀ ino < st.total_inodes, st.allocated ino = true →
      (st.read_inode ino).isSome) :
    ∀ r ∈ (List.map Prod.fst (List.take k (List.insertionSort keyLe (coldVec st)))),
      ∀ j < st.total_inodes, st.allocated j = true →
        j ∉ (List.map Prod.fst (List.take k (List.insertionSort keyLe (coldVec st)))) →
        slotKey st r ≤ slotKey st j := by
  intro r hr j hj hall hnot
  rw [List.mem_map] at hr
  obtain ⟨p, hp, hpr⟩ := hr
  have hpsorted : p ∈ List.insertionSort keyLe (coldVec st) :=
    (List.take_sublist _ _).mem hp
  have hpvec : p ∈ coldVec st :=
    (List.perm_insertionSort keyLe (coldVec st)).mem_iff.mp hpsorted
  have hpfacts := (mem_coldVec st p).mp hpvec
  have hjsome : (st.read_inode j).isSome := hreads j hj hall
  have hjvec : (j, slotKey st j) ∈ coldVec st := by
    rw [mem_coldVec]
    exact ⟨hj, hall, hjsome, rfl⟩
  have hjsorted : (j, slotKey st j) ∈ List.insertionSort keyLe (coldVec st) :=
    (List.perm_insertionSort keyLe (coldVec st)).mem_iff.mpr hjvec
  rw [← List.take_append_drop k (List.insertionSort keyLe (coldVec st)),
    List.mem_append] at hjsorted
  rcases hjsorted with hjtake | hjdrop
  · exact absurd (List.mem_map_of_mem Prod.fst hjtake) hnot
  · have hsorted : List.Sorted keyLe (List.insertionSort keyLe (coldVec st)) :=
      List.sorted_insertionSort keyLe (coldVec st)
    rw [← List.take_append_drop k (List.insertionSort keyLe (coldVec st))] at hsorted
    have hkey := (List.pairwise_append.mp hsorted).2.2 p hp _ hjdrop
    rw [← hpr, ← hpfacts.2.2.2]
    exact hkey

/-- The front of the key-sorted vector, projected to slot ids, is ordered by
key with ties in ascending slot order — the stability of the sort. -/
theorem coldTake_pairwise (st : InodeStore) (k : Nat) :
    List.Pairwise (fun a b => slotKey st a < slotKey st b ∨
        (slotKey st a = slotKey st b ∧ a < b))
      (List.map Prod.fst (List.take k (List.insertionSort keyLe (coldVec st)))) := by
  have hlex : List.Pairwise lexLt (List.insertionSort keyLe (coldVec st)) :=
    pairwise_lex_insertionSort _ (coldVec_pairwise st)
  have htake : List.Pairwise lexLt ((List.insertionSort keyLe (coldVec st)).take k) :=
    List.Pairwise.sublist (List.take_sublist _ _) hlex
  rw [List.pairwise_map]
  refine List.Pairwise.imp_of_mem ?_ htake
  intro a b ha hb hab
  have hav : a ∈ coldVec st :=
    (List.perm_insertionSort keyLe (coldVec st)).mem_iff.mp
      ((List.take_sublist _ _).mem ha)
  have hbv : b ∈ coldVec st :=
    (List.perm_insertionSort keyLe (coldVec st)).mem_iff.mp
      ((List.take_sublist _ _).mem hb)
  have ha2 := ((mem_coldVec st a).mp hav).2.2.2
  have hb2 := ((mem_coldVec st b).mp hbv).2.2.2
  unfold lexLt at hab
  rw [ha2, hb2] at hab
  exact hab

/-- C4 (amended): for 0 < percent ≤ 100 (for larger percentages the pick is
capped at the allocated count, refuting the unrestricted claim) and a store
whose allocated slots all read back, the scan returns at most
allocated-count slot ids and at least one when any slot is allocated; the
returned count is the `size_t` cast of the binary64 evaluation of
`ceil(percent/100 · count)` (floored at 1, capped at the count) and so lies
between ⌈percent/100 · count · (1 − 2⁻⁵⁰)⌉ and
⌈percent/100 · count · (1 + 2⁻⁵⁰)⌉ — the double rounding of the division
and the product forbids asserting the exact rational ceiling; every
returned slot’s fa-time key is at most the key of every allocated slot not
returned, and the result is ordered by key with ties broken by slot id, as
the stable sort over the slot-ordered vector leaves them. -/
theorem C4_collect_cold_by_atime_percent (st : InodeStore) (percent : ℚ)
    (hp : 0 < percent) (hp100 : percent ≤ 100)
    (hreads : ∀ ino < st.total_inodes, st.allocated ino = true →
      (st.read_inode ino).isSome) :
    (CollectColdInodesByAtimePercent st percent).length ≤
      ((List.range st.total_inodes).filter (fun i => st.allocated i)).length ∧
    (0 < ((List.range st.total_inodes).filter (fun i => st.allocated i)).length →
      0 < (CollectColdInodesByAtimePercent st percent).length) ∧
    Int.toNat ⌈percent / 100 * (((List.range st.total_inodes).filter
        (fun i => st.allocated i)).length : ℚ) * (1 - 1 / 2 ^ 50)⌉ ≤
      (CollectColdInodesByAtimePercent st percent).length ∧
    (CollectColdInodesByAtimePercent st percent).length ≤
      Int.toNat ⌈percent / 100 * (((List.range st.total_inodes).filter
        (fun i => st.allocated i)).length : ℚ) * (1 + 1 / 2 ^ 50)⌉ ∧
    (∀ r ∈ CollectColdInodesByAtimePercent st percent,
      ∀ j < st.total_inodes, st.allocated j = true →
        j ∉ CollectColdInodesByAtimePercent st percent →
        slotKey st r ≤ slotKey st j) ∧
    List.Pairwise (fun a b => slotKey st a < slotKey st b ∨
        (slotKey st a = slotKey st b ∧ a < b))
      (CollectColdInodesByAtimePercent st percent) := by
  have hNfilter := coldVec_length st hreads
  set N := (coldVec st).length with hN
  unfold CollectColdInodesByAtimePercent
  rw [if_neg (not_le.mpr hp)]
  by_cases h0 : st.total_inodes = 0
  · rw [if_pos h0]
    have hcv : coldVec st = [] := by
      unfold coldVec
      rw [h0]
      simp
    rw [← hNfilter, hN, hcv]
    simp
  · rw [if_neg h0]
    by_cases hve : (coldVec st).isEmpty
    · rw [if_pos hve]
      rw [List.isEmpty_iff] at hve
      rw [← hNfilter, hN, hve]
      simp
    · rw [if_neg hve]
      rw [List.isEmpty_iff] at hve
      have hNpos : 0 < N := by
        rw [hN]
        exact List.length_pos.mpr hve
      dsimp only
      rw [← hN, ← hNfilter]
      obtain ⟨hw1, hw2⟩ := roundDouble_prod_window percent N hp hNpos
      set D := roundDouble (roundDouble (percent / 100) * roundDouble ((N : ℚ))) with hD
      have hxpos : (0 : ℚ) < percent / 100 * (N : ℚ) :=
        mul_pos (div_pos hp (by norm_num)) (by exact_mod_cast hNpos)
      have hDpos : 0 < D :=
        lt_of_lt_of_le (mul_pos hxpos (by norm_num : (0 : ℚ) < 1 - 1 / 2 ^ 50)) hw1
      have hpick0pos : 0 < Int.toNat ⌈D⌉ := by
        have hcp : (0 : ℤ) < ⌈D⌉ := Int.ceil_pos.mpr hDpos
        omega
      have hlow : Int.toNat ⌈percent / 100 * (N : ℚ) * (1 - 1 / 2 ^ 50)⌉ ≤
          Int.toNat ⌈D⌉ := by
        have h1 := Int.ceil_mono hw1
        omega
      have hhigh : Int.toNat ⌈D⌉ ≤
          Int.toNat ⌈percent / 100 * (N : ℚ) * (1 + 1 / 2 ^ 50)⌉ := by
        have h1 := Int.ceil_mono hw2
        omega
      have hxleN : percent / 100 * (N : ℚ) ≤ (N : ℚ) := by
        calc percent / 100 * (N : ℚ) ≤ 1 * (N : ℚ) :=
              mul_le_mul_of_nonneg_right ((div_le_one (by norm_num)).mpr hp100)
                (Nat.cast_nonneg N)
        _ = (N : ℚ) := one_mul _
      have hlowN : Int.toNat ⌈percent / 100 * (N : ℚ) * (1 - 1 / 2 ^ 50)⌉ ≤ N := by
        have hle : percent / 100 * (N : ℚ) * (1 - 1 / 2 ^ 50) ≤ (N : ℚ) := by
          nlinarith [hxpos, hxleN]
        have h2 : ⌈percent / 100 * (N : ℚ) * (1 - 1 / 2 ^ 50)⌉ ≤ (N : ℤ) := by
          rw [Int.ceil_le]
          push_cast
          exact hle
        omega
      rw [if_neg (by omega : ¬(Int.toNat ⌈D⌉ = 0 ∧ 0 < percent))]
      have hsortlen : (List.insertionSort keyLe (coldVec st)).length = N := by
        rw [hN]
        exact (List.perm_insertionSort keyLe (coldVec st)).length_eq
      have hlen : (List.map Prod.fst (List.take
          (if N < Int.toNat ⌈D⌉ then N else Int.toNat ⌈D⌉)
          (List.insertionSort keyLe (coldVec st)))).length =
          min (Int.toNat ⌈D⌉) N := by
        rw [List.length_map, List.length_take, hsortlen]
        by_cases hc : N < Int.toNat ⌈D⌉
        · rw [if_pos hc]
          omega
        · rw [if_neg hc]
      refine ⟨?_, ?_, ?_, ?_, ?_, ?_⟩
      · rw [hlen]
        omega
      · rw [hlen]
        omega
      · rw [hlen]
        omega
      · rw [hlen]
        omega
      · exact coldTake_dominance st _ hreads
      · exact coldTake_pairwise st _

/-- C4 counterexample: at percent = 200 over two allocated slots the code
returns 2 slot ids while ⌈200% · 2⌉ = 4 (the binary64 arithmetic is exact
here: 200/100, 2 and their product are all representable), so the claimed
count is wrong for percentages above 100. -/
theorem C4_cap_at_total_for_large_percent :
    (CollectColdInodesByAtimePercent c4store 200).length = 2 ∧
    ((List.range c4store.total_inodes).filter (fun i => c4store.allocated i)).length = 2 ∧
    Int.toNat ⌈(200 : ℚ) / 100 * ((2 : Nat) : ℚ)⌉ = 4 := by
  have hr2 : roundDouble (2 : ℚ) = 2 :=
    roundDouble_exact 2 2 0 (by norm_num) (by norm_num) (by norm_num)
  have hr4 : roundDouble (4 : ℚ) = 4 :=
    roundDouble_exact 4 4 0 (by norm_num) (by norm_num) (by norm_num)
  refine ⟨?_, by decide, ?_⟩
  · unfold CollectColdInodesByAtimePercent
    rw [if_neg (by norm_num), if_neg (by decide)]
    have hv : coldVec c4store = [(0, 0), (1, 0)] := by decide
    rw [hv]
    rw [if_neg (by decide)]
    dsimp only
    rw [show ((200 : ℚ) / 100) = 2 by norm_num]
    rw [show (([(0, 0), (1, 0)] : List (Nat × Nat)).length : ℚ) = (2 : ℚ) by simp]
    rw [hr2]
    rw [show (2 : ℚ) * 2 = 4 by norm_num]
    rw [hr4]
    rw [show ⌈(4 : ℚ)⌉ = (4 : ℤ) by norm_num]
    decide
  · have h4 : ⌈(200 : ℚ) / 100 * ((2 : Nat) : ℚ)⌉ = (4 : ℤ) := by norm_num
    rw [h4]
    rfl

/-- C4 witness: the amended theorem applied to the two-slot store at
percent = 50. -/
theorem C4_collect_cold_by_atime_percent_witness :
    (0 : ℚ) < 50 ∧ (50 : ℚ) ≤ 100 ∧
    (∀ ino < c4store.total_inodes, c4store.allocated ino = true →
      (c4store.read_inode ino).isSome) ∧
    ((CollectColdInodesByAtimePercent c4store 50).length ≤
      ((List.range c4store.total_inodes).filter (fun i => c4store.allocated i)).length ∧
    (0 < ((List.range c4store.total_inodes).filter (fun i => c4store.allocated i)).length →
      0 < (CollectColdInodesByAtimePercent c4store 50).length) ∧
    Int.toNat ⌈(50 : ℚ) / 100 * (((List.range c4store.total_inodes).filter
        (fun i => c4store.allocated i)).length : ℚ) * (1 - 1 / 2 ^ 50)⌉ ≤
      (CollectColdInodesByAtimePercent c4store 50).length ∧
    (CollectColdInodesByAtimePercent c4store 50).length ≤
      Int.toNat ⌈(50 : ℚ) / 100 * (((List.range c4store.total_inodes).filter
        (fun i => c4store.allocated i)).length : ℚ) * (1 + 1 / 2 ^ 50)⌉ ∧
    (∀ r ∈ CollectColdInodesByAtimePercent c4store 50,
      ∀ j < c4store.total_inodes, c4store.allocated j = true →
        j ∉ CollectColdInodesByAtimePercent c4store 50 →
        slotKey c4store r ≤ slotKey c4store j) ∧
    List.Pairwise (fun a b => slotKey c4store a < slotKey c4store b ∨
        (slotKey c4store a = slotKey c4store b ∧ a < b))
      (CollectColdInodesByAtimePercent c4store 50)) :=
  ⟨by decide, by decide, by decide,
   C4_collect_cold_by_atime_percent c4store 50 (by decide) (by decide) (by decide)⟩

/-- The consume walk keeps each device within its capacity, takes exactly
`min remaining (total free)` from the list, and moves what it takes from the
free counters to the used counters. -/
theorem consumeDevices_spec (ds : List DeviceState) (rem : Nat)
    (hinv : ∀ d ∈ ds, DevOk d) :
    (∀ d ∈ (consumeDevices ds rem).1, DevOk d) ∧
    (consumeDevices ds rem).2 = rem - min rem (sumFree ds) ∧
    sumUsed (consumeDevices ds rem).1 = sumUsed ds + (rem - (consumeDevices ds rem).2) ∧
    sumFree (consumeDevices ds rem).1 = sumFree ds - (rem - (consumeDevices ds rem).2) := by
  induction ds generalizing rem with
  | nil => simp [consumeDevices, sumFree, sumUsed]
  | cons d t ih =>
    by_cases h0 : rem = 0
    · subst h0
      rw [consumeDevices]
      rw [if_pos rfl]
      exact ⟨hinv, by simp, by simp, by simp⟩
    · rw [consumeDevices]
      rw [if_neg h0]
      by_cases hf : d.free = 0
      · rw [if_pos hf]
        obtain ⟨i1, i2, i3, i4⟩ := ih rem (fun x hx => hinv x (by simp [hx]))
        refine ⟨?_, ?_, ?_, ?_⟩
        · intro x hx
          rcases List.mem_cons.mp hx with hx | hx
          · subst hx; exact hinv x (by simp)
          · exact i1 x hx
        · simp only [sumFree, List.foldr_cons, hf, Nat.zero_add]
          exact i2
        · simp only [sumUsed, sumFree, List.foldr_cons]
          simp only [sumUsed, sumFree] at i3
          omega
        · simp only [sumUsed, sumFree, List.foldr_cons, hf]
          simp only [sumUsed, sumFree] at i4
          have := i2
          omega
      · rw [if_neg hf]
        have hd := hinv d (by simp)
        obtain ⟨hdc, hdcap⟩ := hd
        set take := if d.free < rem then d.free else rem with htake
        have htle : take ≤ d.free := by
          rw [htake]; split <;> omega
        have htler : take ≤ rem := by
          rw [htake]; split <;> omega
        have hmod : (d.used + take) % 2 ^ 64 = d.used + take :=
          Nat.mod_eq_of_lt (by omega)
        obtain ⟨i1, i2, i3, i4⟩ := ih (rem - take) (fun x hx => hinv x (by simp [hx]))
        refine ⟨?_, ?_, ?_, ?_⟩
        · intro x hx
          rcases List.mem_cons.mp hx with hx | hx
          · subst hx
            refine ⟨?_, by simpa using hdcap⟩
            simp only [hmod]
            omega
          · exact i1 x hx
        · simp only [sumFree, List.foldr_cons]
          simp only [sumFree] at i2
          rw [i2, htake]
          split <;> omega
        · simp only [sumUsed, List.foldr_cons, hmod]
          simp only [sumUsed] at i3
          simp only [sumFree] at i2
          omega
        · simp only [sumFree, List.foldr_cons]
          simp only [sumFree] at i2 i4
          omega

/-- Replacing a binding makes lookup return the replacement. -/
theorem lnodesFind_assign_self (nodes : List (String × LedgerNode)) (k : String)
    (v : LedgerNode) : lnodesFind (lnodesAssign nodes k v) k = some v := by
  induction nodes with
  | nil => simp [lnodesAssign, lnodesFind]
  | cons kv t ih =>
    rw [lnodesAssign]
    by_cases h : kv.1 = k
    · rw [if_pos h, lnodesFind, if_pos h]
    · rw [if_neg h, lnodesFind, if_neg h]
      exact ih
/-- Replacing a binding with a node satisfying the invariant preserves the
ledger-wide invariant. -/
theorem ledgerOk_assign (nodes : List (String × LedgerNode)) (k : String)
    (v : LedgerNode) (hall : ∀ kv ∈ nodes, NodeOk kv.2) (hv : NodeOk v) :
    ∀ kv ∈ lnodesAssign nodes k v, NodeOk kv.2 := by
  induction nodes with
  | nil =>
    intro kv hkv
    simp [lnodesAssign] at hkv
    rw [hkv]
    exact hv
  | cons kv0 t ih =>
    intro kv hkv
    rw [lnodesAssign] at hkv
    by_cases h : kv0.1 = k
    · rw [if_pos h] at hkv
      rcases List.mem_cons.mp hkv with hx | hx
      · rw [hx]; exact hv
      · exact hall kv (by simp [hx])
    · rw [if_neg h] at hkv
      rcases List.mem_cons.mp hkv with hx | hx
      · rw [hx]; exact hall kv0 (by simp)
      · exact ih (fun x hx2 => hall x (by simp [hx2])) kv hx

/-- Consuming zero bytes is the identity. -/
theorem consumeDevices_zero (ds : List DeviceState) : consumeDevices ds 0 = (ds, 0) := by
  cases ds with
  | nil => rfl
  | cons d t => rw [consumeDevices, if_pos rfl]
/-- The `remaining > 0` guard before the second consume pass is redundant:
consuming 0 is the identity. -/
theorem consume_ite (ds : List DeviceState) (rem : Nat) :
    (if rem > 0 then consumeDevices ds rem else (ds, rem)) = consumeDevices ds rem := by
  by_cases h : rem > 0
  · rw [if_pos h]
  · rw [if_neg h]
    have : rem = 0 := by omega
    rw [this, consumeDevices_zero]
/-- Two consume passes over the primary and the fallback device list:
invariants hold, the total shortfall is zero exactly when the request fits in
the combined free space, the used total grows by what fits, and a request
that fits in the primary list leaves the fallback list untouched. -/
theorem consume2_spec (ds1 ds2 : List DeviceState) (bytes : Nat)
    (h1 : ∀ d ∈ ds1, DevOk d) (h2 : ∀ d ∈ ds2, DevOk d) :
    (∀ d ∈ (consumeDevices ds1 bytes).1, DevOk d) ∧
    (∀ d ∈ (consumeDevices ds2 (consumeDevices ds1 bytes).2).1, DevOk d) ∧
    ((consumeDevices ds2 (consumeDevices ds1 bytes).2).2 = 0 ↔
      bytes ≤ sumFree ds1 + sumFree ds2) ∧
    sumUsed (consumeDevices ds1 bytes).1 +
      sumUsed (consumeDevices ds2 (consumeDevices ds1 bytes).2).1 =
      sumUsed ds1 + sumUsed ds2 + min bytes (sumFree ds1 + sumFree ds2) ∧
    (bytes ≤ sumFree ds1 →
      (consumeDevices ds2 (consumeDevices ds1 bytes).2).1 = ds2) := by
  obtain ⟨a1, a2, a3, a4⟩ := consumeDevices_spec ds1 bytes h1
  obtain ⟨b1, b2, b3, b4⟩ := consumeDevices_spec ds2 (consumeDevices ds1 bytes).2 h2
  refine ⟨a1, b1, ?_, ?_, ?_⟩
  · rw [b2, a2]
    omega
  · rw [a3, b3, b2, a2]
    omega
  · intro hfit
    have : (consumeDevices ds1 bytes).2 = 0 := by
      rw [a2]; omega
    rw [this, consumeDevices_zero]

/-- A successful lookup returns the payload of some map entry. -/
theorem lnodesFind_mem (nodes : List (String × LedgerNode)) (id : String)
    (v : LedgerNode) (h : lnodesFind nodes id = some v) : ∃ kv ∈ nodes, kv.2 = v := by
  induction nodes with
  | nil => simp [lnodesFind] at h
  | cons kv0 t ih =>
    obtain ⟨k0, v0⟩ := kv0
    rw [lnodesFind] at h
    by_cases hk : k0 = id
    · rw [if_pos hk] at h
      exact ⟨(k0, v0), by simp, by simpa using h⟩
    · rw [if_neg hk] at h
      obtain ⟨kv2, hmem, heq⟩ := ih h
      exact ⟨kv2, by simp [hmem], heq⟩
/-- `InitEmpty` devices start with `used = 0`, `free = capacity`. -/
theorem C6_init_ok (s h m cap : Nat) (hcap : cap < 2 ^ 64) :
    LedgerOk (InitEmpty s h m cap) := by
  intro kv hkv
  unfold InitEmpty at hkv
  simp only [List.mem_append, List.mem_map, List.mem_range] at hkv
  rcases hkv with (⟨a, ha, he⟩ | ⟨a, ha, he⟩) | ⟨a, ha, he⟩
  · rw [← he]
    constructor
    · intro d hd
      simp at hd
      rw [hd]
      exact ⟨by simp, by simp; omega⟩
    · intro d hd
      exact absurd hd (by simp)
  · rw [← he]
    constructor
    · intro d hd
      exact absurd hd (by simp)
    · intro d hd
      simp at hd
      rw [hd]
      exact ⟨by simp, by simp; omega⟩
  · rw [← he]
    constructor
    · intro d hd
      simp at hd
      rw [hd]
      exact ⟨by simp, by simp; omega⟩
    · intro d hd
      simp at hd
      rw [hd]
      exact ⟨by simp, by simp; omega⟩

/-- Behavior of `ApplyInode` when the resolved node exists: invariant
preserved; success iff the size fits the node’s combined free space; the
node’s used total grows by what fits; and the fallback class is untouched
whenever the primary class suffices (ssd-first for classes 0 and 2,
hdd-first for class 1). -/
theorem applyInode_found (l : VirtualNodeLedger) (i : Inode) (node : LedgerNode)
    (hok : LedgerOk l)
    (hne : ResolveNodeId l i.nodeId (i.nodeType % 4) ≠ "")
    (hfind : lnodesFind l.nodes (ResolveNodeId l i.nodeId (i.nodeType % 4)) = some node) :
    LedgerOk (ApplyInode l i).2 ∧
    ((ApplyInode l i).1 = true ↔ i.getFileSize ≤ nodeFree node) ∧
    ∃ node2, lnodesFind (ApplyInode l i).2.nodes
        (ResolveNodeId l i.nodeId (i.nodeType % 4)) = some node2 ∧
      nodeUsed node2 = nodeUsed node + min i.getFileSize (nodeFree node) ∧
      (i.nodeType % 4 = 0 → i.getFileSize ≤ sumFree node.ssd_devices →
        node2.hdd_devices = node.hdd_devices) ∧
      (i.nodeType % 4 = 1 → i.getFileSize ≤ sumFree node.hdd_devices →
        node2.ssd_devices = node.ssd_devices) ∧
      (i.nodeType % 4 = 2 → i.getFileSize ≤ sumFree node.ssd_devices →
        node2.hdd_devices = node.hdd_devices) := by
  have hnodeok : NodeOk node := by
    obtain ⟨kv, hmem, heq⟩ := lnodesFind_mem l.nodes _ node hfind
    rw [← heq]
    exact hok kv hmem
  obtain ⟨hssd, hhdd⟩ := hnodeok
  unfold ApplyInode
  rw [if_neg hne]
  by_cases hb : i.getFileSize = 0
  · rw [if_pos hb]
    refine ⟨hok, by simp [hb], node, hfind, by simp [hb], by simp, by simp, by simp⟩
  · rw [if_neg hb, hfind]
    dsimp only
    by_cases ht0 : i.nodeType % 4 = 0
    · rw [if_pos ht0]
      rw [consume_ite]
      obtain ⟨c1, c2, c3, c4, c5⟩ :=
        consume2_spec node.ssd_devices node.hdd_devices i.getFileSize hssd hhdd
      constructor
      · intro kv hkv
        refine ledgerOk_assign l.nodes _ _ hok ⟨c1, c2⟩ kv hkv
      refine ⟨?_, ?_⟩
      · simp only [decide_eq_true_eq]
        rw [c3]
        unfold nodeFree
        exact Iff.rfl
      · refine ⟨_, lnodesFind_assign_self _ _ _, ?_, ?_, ?_, ?_⟩
        · unfold nodeUsed nodeFree
          simpa using c4
        · intro _ hfit
          simpa using c5 hfit
        · intro h1
          rw [ht0] at h1
          simp at h1
        · intro h2 _
          omega
    · rw [if_neg ht0]
      by_cases ht1 : i.nodeType % 4 = 1
      · rw [if_pos ht1]
        rw [consume_ite]
        obtain ⟨c1, c2, c3, c4, c5⟩ :=
          consume2_spec node.hdd_devices node.ssd_devices i.getFileSize hhdd hssd
        constructor
        · intro kv hkv
          refine ledgerOk_assign l.nodes _ _ hok ⟨c2, c1⟩ kv hkv
        refine ⟨?_, ?_⟩
        · simp only [decide_eq_true_eq]
          rw [c3]
          unfold nodeFree
          constructor <;> (intro h; omega)
        · refine ⟨_, lnodesFind_assign_self _ _ _, ?_, ?_, ?_, ?_⟩
          · unfold nodeUsed nodeFree
            simp only
            rw [Nat.add_comm (sumUsed _) (sumUsed _)] at c4
            rw [c4]
            omega
          · intro h0
            rw [ht1] at h0
            simp at h0
          · intro _ hfit
            simpa using c5 hfit
          · intro h2 _
            omega
      · rw [if_neg ht1]
        obtain ⟨c1, c2, c3, c4, c5⟩ :=
          consume2_spec node.ssd_devices node.hdd_devices i.getFileSize hssd hhdd
        constructor
        · intro kv hkv
          refine ledgerOk_assign l.nodes _ _ hok ⟨c1, c2⟩ kv hkv
        refine ⟨?_, ?_⟩
        · simp only [decide_eq_true_eq]
          rw [c3]
          unfold nodeFree
          exact Iff.rfl
        · refine ⟨_, lnodesFind_assign_self _ _ _, ?_, ?_, ?_, ?_⟩
          · unfold nodeUsed nodeFree
            simpa using c4
          · intro h0
            exact absurd h0 ht0
          · intro h1
            exact absurd h1 ht1
          · intro _ hfit
            simpa using c5 hfit

/-- C6 (amended): every ledger state built by `InitEmpty` (with a 64-bit
capacity) satisfies per-device `used + free ≤ capacity` (`used ≥ 0` holds in
the `Nat` model), `apply_inode` preserves that invariant, and on a resolved,
existing node it consumes the inode’s file size from the node’s devices in
class order — succeeding exactly when the full size fits the node’s free
space, increasing the used total by exactly what was consumed, and leaving
the fallback device class untouched when the primary class suffices
(ssd-first for the SSD class 0, hdd-first for the HDD class 1, and ssd-first
for the Mix class 2, whose switch case consumes ssd then hdd).
`load_from_json` is excluded from the invariant clause: it clamps `used` and
`free` to the capacity separately and accepts inconsistent inputs (see the
counterexample). -/
theorem C6_ledger_invariant_and_consume :
    (∀ s h m cap, cap < 2 ^ 64 → LedgerOk (InitEmpty s h m cap)) ∧
    (∀ l i, LedgerOk l → LedgerOk (ApplyInode l i).2) ∧
    (∀ l i node, LedgerOk l →
      ResolveNodeId l i.nodeId (i.nodeType % 4) ≠ "" →
      lnodesFind l.nodes (ResolveNodeId l i.nodeId (i.nodeType % 4)) = some node →
      ((ApplyInode l i).1 = true ↔ i.getFileSize ≤ nodeFree node) ∧
      ∃ node2, lnodesFind (ApplyInode l i).2.nodes
          (ResolveNodeId l i.nodeId (i.nodeType % 4)) = some node2 ∧
        nodeUsed node2 = nodeUsed node + min i.getFileSize (nodeFree node) ∧
        (i.nodeType % 4 = 0 → i.getFileSize ≤ sumFree node.ssd_devices →
          node2.hdd_devices = node.hdd_devices) ∧
        (i.nodeType % 4 = 1 → i.getFileSize ≤ sumFree node.hdd_devices →
          node2.ssd_devices = node.ssd_devices) ∧
        (i.nodeType % 4 = 2 → i.getFileSize ≤ sumFree node.ssd_devices →
          node2.hdd_devices = node.hdd_devices)) := by
  refine ⟨C6_init_ok, ?_, ?_⟩
  · intro l i hok
    by_cases hne : ResolveNodeId l i.nodeId (i.nodeType % 4) = ""
    · unfold ApplyInode
      rw [if_pos hne]
      exact hok
    · cases hfind : lnodesFind l.nodes (ResolveNodeId l i.nodeId (i.nodeType % 4)) with
      | none =>
        unfold ApplyInode
        rw [if_neg hne]
        by_cases hb : i.getFileSize = 0
        · rw [if_pos hb]; exact hok
        · rw [if_neg hb, hfind]; exact hok
      | some node => exact (applyInode_found l i node hok hne hfind).1
  · intro l i node hok hne hfind
    exact (applyInode_found l i node hok hne hfind).2
/-- C6 witness: the ledger theorem applied to `InitEmpty 1 0 0 1000` and an
SSD-class inode of 5 bytes. -/
theorem C6_ledger_invariant_and_consume_witness :
    (1000 : Nat) < 2 ^ 64 ∧
    LedgerOk (InitEmpty 1 0 0 1000) ∧
    ResolveNodeId (InitEmpty 1 0 0 1000) c6inode.nodeId (c6inode.nodeType % 4) ≠ "" ∧
    lnodesFind (InitEmpty 1 0 0 1000).nodes
      (ResolveNodeId (InitEmpty 1 0 0 1000) c6inode.nodeId (c6inode.nodeType % 4)) =
      some c6node ∧
    (((ApplyInode (InitEmpty 1 0 0 1000) c6inode).1 = true ↔
        c6inode.getFileSize ≤ nodeFree c6node) ∧
      ∃ node2, lnodesFind (ApplyInode (InitEmpty 1 0 0 1000) c6inode).2.nodes
          (ResolveNodeId (InitEmpty 1 0 0 1000) c6inode.nodeId (c6inode.nodeType % 4)) =
          some node2 ∧
        nodeUsed node2 = nodeUsed c6node + min c6inode.getFileSize (nodeFree c6node) ∧
        (c6inode.nodeType % 4 = 0 → c6inode.getFileSize ≤ sumFree c6node.ssd_devices →
          node2.hdd_devices = c6node.hdd_devices) ∧
        (c6inode.nodeType % 4 = 1 → c6inode.getFileSize ≤ sumFree c6node.hdd_devices →
          node2.ssd_devices = c6node.ssd_devices) ∧
        (c6inode.nodeType % 4 = 2 → c6inode.getFileSize ≤ sumFree c6node.ssd_devices →
          node2.hdd_devices = c6node.hdd_devices)) :=
  ⟨by decide, by decide, by decide, by decide,
   C6_ledger_invariant_and_consume.2.2 (InitEmpty 1 0 0 1000) c6inode c6node (by decide) (by decide) (by decide)⟩
/-- C6 counterexample: loading a device declared `capacity 100, used_bytes
60, free_bytes 90` stores it verbatim (each clamp passes separately), so the
loaded ledger violates `used + free ≤ capacity` — the reachable-state
invariant claimed for `load_from_json` is false. -/
theorem C6_load_violates_invariant :
    (lnodesFind (LoadFromJson c6json).nodes "n1").map
        (fun n => n.ssd_devices.map (fun d => (d.capacity, d.used, d.free))) =
      some [(100, 60, 90)] ∧
    ¬ LedgerOk (LoadFromJson c6json) := by
  refine ⟨by decide, by decide⟩

/-- The eviction loop either brings the cache within its cap or leaves an
entry with live references in it (its stopping condition). -/
theorem evictLoop_spec (max_open : Nat) :
    ∀ (fuel : Nat) (l : List (String × FDEntry)), l.length ≤ fuel →
      (evictLoop max_open fuel l).length ≤ max_open ∨
      ∃ e ∈ evictLoop max_open fuel l, e.2.ref_count > 0 := by
  intro fuel
  induction fuel with
  | zero =>
    intro l hl
    left
    rw [evictLoop]
    omega
  | succ fuel ih =>
    intro l hl
    rw [evictLoop]
    by_cases hle : l.length ≤ max_open
    · rw [if_pos hle]
      exact Or.inl hle
    · rw [if_neg hle]
      cases hlast : l.getLast? with
      | none =>
        rw [List.getLast?_eq_none_iff] at hlast
        rw [hlast]
        left
        simp
      | some ke =>
        obtain ⟨k, e⟩ := ke
        dsimp only
        by_cases href : e.ref_count > 0
        · rw [if_pos href]
          right
          exact ⟨(k, e), by simp, href⟩
        · rw [if_neg href]
          refine ih l.dropLast ?_
          have hne : l ≠ [] := by
            intro h
            rw [h] at hlast
            simp at hlast
          have hdl := List.length_dropLast l
          have hpos : 0 < l.length := List.length_pos.mpr hne
          omega
/-- `EvictIfNeeded` with its actual fuel (the list length). -/
theorem evict_spec (max_open : Nat) (l : List (String × FDEntry)) :
    (EvictIfNeeded max_open l).length ≤ max_open ∨
    ∃ e ∈ EvictIfNeeded max_open l, e.2.ref_count > 0 :=
  evictLoop_spec max_open l.length l (Nat.le_refl _)
/-- Replacing the entry stored under a present key puts the replacement in
the list. -/
theorem mem_cacheSet_self (l : List (String × FDEntry)) (key : String)
    (e e2 : FDEntry) (h : cacheFind l key = some e) : (key, e2) ∈ cacheSet l key e2 := by
  induction l with
  | nil => simp [cacheFind] at h
  | cons kv t ih =>
    obtain ⟨k0, e0⟩ := kv
    rw [cacheFind] at h
    rw [cacheSet]
    by_cases hk : k0 = key
    · rw [if_pos hk]
      subst hk
      simp
    · rw [if_neg hk] at h ⊢
      exact List.mem_cons_of_mem _ (ih h)

/-- A cache whose entry list was just produced by `EvictIfNeeded` satisfies
the over-cap condition. -/
theorem busyOk_evict (max_open : Nat) (sync : Bool) (l : List (String × FDEntry)) :
    CacheBusyOk ⟨EvictIfNeeded max_open l, max_open, sync⟩ := by
  intro hover
  rcases evict_spec max_open l with h | h
  · exact absurd hover (by simpa using Nat.not_lt.mpr h)
  · exact h
/-- C7 (amended): after every acquire and release the cache exceeds
`max_open_files` only if it holds at least one entry with refcount > 0.  The
claimed stronger property — that over cap *every* entry is busy — is false:
eviction walks from the LRU tail and stops at the first entry with live
references (rotating it to the front) instead of skipping past it, so
refcount-0 entries elsewhere in the list can survive (see the
counterexample). -/
theorem C7_fdcache_over_cap_busy :
    (∀ (c : FdCache) (path : String) (flags : Nat) (open_fd : Option Nat),
      CacheBusyOk c → CacheBusyOk (AcquireFd c path flags open_fd).2) ∧
    (∀ (c : FdCache) (path : String) (flags : Nat),
      CacheBusyOk c → CacheBusyOk (ReleaseFd c path flags)) := by
  constructor
  · intro c path flags open_fd hP
    unfold AcquireFd
    cases hfind : cacheFind c.entries (cacheKey c path flags) with
    | some e =>
      simp only [hfind]
      intro _
      refine ⟨(cacheKey c path flags, { e with ref_count := e.ref_count + 1 }), ?_, by simp⟩
      have ht : cacheTouch c.entries (cacheKey c path flags) =
          (cacheKey c path flags, e) :: cacheRemove c.entries (cacheKey c path flags) := by
        unfold cacheTouch
        rw [hfind]
      rw [ht]
      simp [cacheSet]
    | none =>
      cases open_fd with
      | none => simpa [hfind] using hP
      | some fd =>
        simp only [hfind]
        exact busyOk_evict _ _ _
  · intro c path flags hP
    unfold ReleaseFd
    cases hfind : cacheFind c.entries (cacheKey c path flags) with
    | none => simpa [hfind] using hP
    | some e =>
      simp only [hfind]
      by_cases hz : (if e.ref_count > 0 then { e with ref_count := e.ref_count - 1 } else e).ref_count = 0
      · rw [if_pos hz]
        exact busyOk_evict _ _ _
      · rw [if_neg hz]
        intro _
        refine ⟨(cacheKey c path flags,
            (if e.ref_count > 0 then { e with ref_count := e.ref_count - 1 } else e)),
          ?_, ?_⟩
        · exact mem_cacheSet_self c.entries _ e _ hfind
        · dsimp only
          omega

/-- C7 witness: the preservation theorem applied to a fresh cap-1 cache. -/
theorem C7_fdcache_over_cap_busy_witness :
    CacheBusyOk (FdCache.init 1 false) ∧
    CacheBusyOk (AcquireFd (FdCache.init 1 false) "a" 1 (some 3)).2 ∧
    CacheBusyOk (ReleaseFd (FdCache.init 1 false) "a" 1) :=
  ⟨by decide,
   C7_fdcache_over_cap_busy.1 (FdCache.init 1 false) "a" 1 (some 3) (by decide),
   C7_fdcache_over_cap_busy.2 (FdCache.init 1 false) "a" 1 (by decide)⟩

/-- C7 counterexample: with cap 1, acquire "a", acquire "b" (eviction finds
the busy tail "a" and rotates it to the front), then release "a".  The
release decrements "a" to refcount 0 and re-runs eviction, which now stops
at the busy tail "b" — leaving the cache at 2 entries > cap 1 with the
refcount-0 entry "a" still cached, refuting "every cached entry has
refcount > 0 when over cap". -/
theorem C7_release_leaves_idle_entry_over_cap :
    c7s3.entries = [("b#2097153", ⟨4, true, 1⟩), ("a#2097153", ⟨3, true, 0⟩)] ∧
    c7s3.max_open_files = 1 := by
  decide


/-- C9: with the draw u ∈ [0, 1), a failure rate of 0 lets every engine
operation succeed — the write acknowledging the payload length, the read
returning the requested (or default) count of zero bytes with their CRC32C —
and a failure rate of 1 makes every operation return `VirtualNodeError` with
message "simulated failure" (u < 1 always, u < 0 never). -/
theorem C9_engine (cfg : SimulationConfig) (u : ℚ)
    (reqW : WriteRequest) (reqR : ReadRequest) (reqT : TruncateRequest)
    (hu0 : 0 ≤ u) (hu1 : u < 1) :
    (cfg.failure_rate = 0 →
      (SimulateWrite cfg u reqW).status = SetStatus StatusCode.Success "" ∧
      (SimulateWrite cfg u reqW).bytes_written = reqW.data.length ∧
      (SimulateRead cfg u reqR).status = SetStatus StatusCode.Success "" ∧
      (SimulateRead cfg u reqR).data =
        List.replicate (if reqR.length > 0 then reqR.length else cfg.default_read_size) 0 ∧
      (SimulateRead cfg u reqR).bytes_read =
        (if reqR.length > 0 then reqR.length else cfg.default_read_size) ∧
      (SimulateRead cfg u reqR).checksum = crc32c (SimulateRead cfg u reqR).data ∧
      (SimulateTruncate cfg u reqT).status = SetStatus StatusCode.Success "") ∧
    (cfg.failure_rate = 1 →
      (SimulateWrite cfg u reqW).status =
        ⟨StatusCode.VirtualNodeError, "simulated failure"⟩ ∧
      (SimulateRead cfg u reqR).status =
        ⟨StatusCode.VirtualNodeError, "simulated failure"⟩ ∧
      (SimulateTruncate cfg u reqT).status =
        ⟨StatusCode.VirtualNodeError, "simulated failure"⟩) := by
  constructor
  · intro h0
    have hmf : MaybeFail cfg u Status.default = Status.default := by
      unfold MaybeFail
      rw [h0, if_neg (not_lt.mpr hu0)]
    unfold SimulateWrite SimulateRead SimulateTruncate
    rw [hmf]
    simp [Status.default]
  · intro h1
    have hmf : MaybeFail cfg u Status.default =
        ⟨StatusCode.VirtualNodeError, "simulated failure"⟩ := by
      unfold MaybeFail
      rw [h1, if_pos hu1]
      rfl
    unfold SimulateWrite SimulateRead SimulateTruncate
    rw [hmf]
    refine ⟨by simp, by simp, by simp⟩

/-- C9 witness: the engine theorem at failure rates 0 and 1, draw u = 0. -/
theorem C9_engine_witness :
    (0 : ℚ) ≤ 0 ∧ (0 : ℚ) < 1 ∧
    (((⟨0, 4096⟩ : SimulationConfig).failure_rate = 0 →
      (SimulateWrite ⟨0, 4096⟩ 0 ⟨"V", [97, 98, 99]⟩).status = SetStatus StatusCode.Success "" ∧
      (SimulateWrite ⟨0, 4096⟩ 0 ⟨"V", [97, 98, 99]⟩).bytes_written =
        ([97, 98, 99] : List Nat).length ∧
      (SimulateRead ⟨0, 4096⟩ 0 ⟨"V", 5⟩).status = SetStatus StatusCode.Success "" ∧
      (SimulateRead ⟨0, 4096⟩ 0 ⟨"V", 5⟩).data =
        List.replicate (if (5 : Nat) > 0 then 5 else (4096 : Nat)) 0 ∧
      (SimulateRead ⟨0, 4096⟩ 0 ⟨"V", 5⟩).bytes_read =
        (if (5 : Nat) > 0 then 5 else (4096 : Nat)) ∧
      (SimulateRead ⟨0, 4096⟩ 0 ⟨"V", 5⟩).checksum =
        crc32c (SimulateRead ⟨0, 4096⟩ 0 ⟨"V", 5⟩).data ∧
      (SimulateTruncate ⟨0, 4096⟩ 0 ⟨"V", 0⟩).status = SetStatus StatusCode.Success "") ∧
    ((⟨0, 4096⟩ : SimulationConfig).failure_rate = 1 →
      (SimulateWrite ⟨0, 4096⟩ 0 ⟨"V", [97, 98, 99]⟩).status =
        ⟨StatusCode.VirtualNodeError, "simulated failure"⟩ ∧
      (SimulateRead ⟨0, 4096⟩ 0 ⟨"V", 5⟩).status =
        ⟨StatusCode.VirtualNodeError, "simulated failure"⟩ ∧
      (SimulateTruncate ⟨0, 4096⟩ 0 ⟨"V", 0⟩).status =
        ⟨StatusCode.VirtualNodeError, "simulated failure"⟩)) :=
  ⟨by decide, by decide,
   C9_engine ⟨0, 4096⟩ 0 ⟨"V", [97, 98, 99]⟩ ⟨"V", 5⟩ ⟨"V", 0⟩ (by decide) (by decide)⟩

/-- C8: for each of write, read and truncate the dispatcher completes an
empty-node-id request with `InvalidArgument` for every registry state (the
registry is never consulted), completes an unknown node id with
`NodeNotFound`, and completes a write routed to a registered virtual node
under failure rate 0 with Success and `bytes_written` equal to the payload
length. -/
theorem C8_dispatch (d : Dispatcher) (u : ℚ)
    (reqW : WriteRequest) (reqR : ReadRequest) (reqT : TruncateRequest) :
    (reqW.node_id = "" → DispatchWrite d u reqW = DispatchOutcome.completed
      ⟨0, SetStatus StatusCode.InvalidArgument "missing node_id"⟩) ∧
    (reqR.node_id = "" → DispatchRead d u reqR = DispatchOutcome.completed
      ⟨0, [], 0, SetStatus StatusCode.InvalidArgument "missing node_id"⟩) ∧
    (reqT.node_id = "" → DispatchTruncate d u reqT = DispatchOutcome.completed
      ⟨SetStatus StatusCode.InvalidArgument "missing node_id"⟩) ∧
    (reqW.node_id ≠ "" →
      d.manager.bind (fun reg => Registry.find reg reqW.node_id) = none →
      DispatchWrite d u reqW = DispatchOutcome.completed
        ⟨0, SetStatus StatusCode.NodeNotFound "unknown node"⟩) ∧
    (reqR.node_id ≠ "" →
      d.manager.bind (fun reg => Registry.find reg reqR.node_id) = none →
      DispatchRead d u reqR = DispatchOutcome.completed
        ⟨0, [], 0, SetStatus StatusCode.NodeNotFound "unknown node"⟩) ∧
    (reqT.node_id ≠ "" →
      d.manager.bind (fun reg => Registry.find reg reqT.node_id) = none →
      DispatchTruncate d u reqT = DispatchOutcome.completed
        ⟨SetStatus StatusCode.NodeNotFound "unknown node"⟩) ∧
    (∀ ctx cfg, reqW.node_id ≠ "" →
      d.manager.bind (fun reg => Registry.find reg reqW.node_id) = some ctx →
      ctx.ntype = NodeType.Virtual → d.engine = some cfg →
      cfg.failure_rate = 0 → 0 ≤ u →
      DispatchWrite d u reqW = DispatchOutcome.completed
        ⟨reqW.data.length, SetStatus StatusCode.Success ""⟩) := by
  refine ⟨?_, ?_, ?_, ?_, ?_, ?_, ?_⟩
  · intro h
    unfold DispatchWrite
    rw [if_pos h]
  · intro h
    unfold DispatchRead
    rw [if_pos h]
  · intro h
    unfold DispatchTruncate
    rw [if_pos h]
  · intro h hn
    unfold DispatchWrite
    rw [if_neg h, hn]
  · intro h hn
    unfold DispatchRead
    rw [if_neg h, hn]
  · intro h hn
    unfold DispatchTruncate
    rw [if_neg h, hn]
  · intro ctx cfg h hn hv he h0 hu
    unfold DispatchWrite
    rw [if_neg h, hn]
    dsimp only
    rw [if_pos hv, he]
    dsimp only
    unfold SimulateWrite MaybeFail
    rw [h0, if_neg (not_lt.mpr hu)]
    simp [Status.default]

/-- C8 witness: the dispatcher theorem on the one-virtual-node registry, with
the empty id, the unknown id "U", and a 3-byte write to "V". -/
theorem C8_dispatch_witness :
    DispatchWrite d8 0 ⟨"", []⟩ = DispatchOutcome.completed
      ⟨0, SetStatus StatusCode.InvalidArgument "missing node_id"⟩ ∧
    DispatchRead d8 0 ⟨"", 0⟩ = DispatchOutcome.completed
      ⟨0, [], 0, SetStatus StatusCode.InvalidArgument "missing node_id"⟩ ∧
    DispatchTruncate d8 0 ⟨"", 0⟩ = DispatchOutcome.completed
      ⟨SetStatus StatusCode.InvalidArgument "missing node_id"⟩ ∧
    DispatchWrite d8 0 ⟨"U", []⟩ = DispatchOutcome.completed
      ⟨0, SetStatus StatusCode.NodeNotFound "unknown node"⟩ ∧
    DispatchRead d8 0 ⟨"U", 0⟩ = DispatchOutcome.completed
      ⟨0, [], 0, SetStatus StatusCode.NodeNotFound "unknown node"⟩ ∧
    DispatchTruncate d8 0 ⟨"U", 0⟩ = DispatchOutcome.completed
      ⟨SetStatus StatusCode.NodeNotFound "unknown node"⟩ ∧
    DispatchWrite d8 0 ⟨"V", [97, 98, 99]⟩ = DispatchOutcome.completed
      ⟨3, SetStatus StatusCode.Success ""⟩ :=
  ⟨(C8_dispatch d8 0 ⟨"", []⟩ ⟨"", 0⟩ ⟨"", 0⟩).1 rfl,
   (C8_dispatch d8 0 ⟨"", []⟩ ⟨"", 0⟩ ⟨"", 0⟩).2.1 rfl,
   (C8_dispatch d8 0 ⟨"", []⟩ ⟨"", 0⟩ ⟨"", 0⟩).2.2.1 rfl,
   (C8_dispatch d8 0 ⟨"U", []⟩ ⟨"U", 0⟩ ⟨"U", 0⟩).2.2.2.1 (by decide) (by decide),
   (C8_dispatch d8 0 ⟨"U", []⟩ ⟨"U", 0⟩ ⟨"U", 0⟩).2.2.2.2.1 (by decide) (by decide),
   (C8_dispatch d8 0 ⟨"U", []⟩ ⟨"U", 0⟩ ⟨"U", 0⟩).2.2.2.2.2.1 (by decide) (by decide),
   (C8_dispatch d8 0 ⟨"V", [97, 98, 99]⟩ ⟨"V", 0⟩ ⟨"V", 0⟩).2.2.2.2.2.2 ctxV ⟨0, 4096⟩
     (by decide) (by decide) (by decide) (by decide) (by decide) (by decide)⟩


/-- C10 (amended): `FindInodeByPath "/"` always returns the inode read from
the fixed slot 2 (`GetRootInode`), whatever the table holds and wherever
`CreateRoot` registered the root; consequently, whenever the table binds "/"
to a slot r and the inode number stored in slot 2 (0 when the read fails and
the default-constructed inode is returned) differs from r, `LookupIno "/"`
and `FindInodeByPath "/"`→inode disagree.  The unconditional form of the
claimed consequence — that allocating any slot other than 2 already forces a
disagreement — is refuted by the counterexample, where both sides are 0. -/
theorem C10_root_reads_slot_two (srv : MdsServer) (now : InodeTimestamp) :
    FindInodeByPath srv now "/" = some (readOrDefault srv now GetRootInode) ∧
    (∀ r, tableFind srv.inode_table "/" = some r →
      (readOrDefault srv now GetRootInode).inode ≠ r →
      LookupIno srv now "/" = r ∧
      (FindInodeByPath srv now "/").map Inode.inode =
        some ((readOrDefault srv now GetRootInode).inode) ∧
      (FindInodeByPath srv now "/").map Inode.inode ≠ some r) := by
  have hfind : FindInodeByPath srv now "/" = some (readOrDefault srv now GetRootInode) := by
    unfold FindInodeByPath
    rw [if_neg (by decide), if_pos rfl]
  refine ⟨hfind, ?_⟩
  intro r htab hne
  refine ⟨?_, ?_, ?_⟩
  · unfold LookupIno
    rw [htab]
  · rw [hfind]
    rfl
  · rw [hfind]
    simpa using hne

/-- C10 witness: the root-lookup theorem on a state binding "/" to slot 5
while slot 2 holds inode number 42. -/
theorem C10_root_reads_slot_two_witness :
    tableFind c10wit.inode_table "/" = some 5 ∧
    (readOrDefault c10wit ⟨0, 0, 0, 0, 0⟩ GetRootInode).inode ≠ 5 ∧
    (LookupIno c10wit ⟨0, 0, 0, 0, 0⟩ "/" = 5 ∧
      (FindInodeByPath c10wit ⟨0, 0, 0, 0, 0⟩ "/").map Inode.inode =
        some ((readOrDefault c10wit ⟨0, 0, 0, 0, 0⟩ GetRootInode).inode) ∧
      (FindInodeByPath c10wit ⟨0, 0, 0, 0, 0⟩ "/").map Inode.inode ≠ some 5) :=
  ⟨by decide, by decide,
   (C10_root_reads_slot_two c10wit ⟨0, 0, 0, 0, 0⟩).2 5 (by decide) (by decide)⟩

/-- C10 counterexample: on a fresh store `CreateRoot` allocates slot 0 (not
2) and registers "/" → 0, yet `LookupIno "/"` and `FindInodeByPath "/"`→inode
are both 0 — slot 2 is unreadable, so the "/" branch returns the default
inode whose number is 0 — refuting the claim that a root slot other than 2
always makes the two lookups disagree. -/
theorem C10_fresh_root_lookups_agree :
    (CreateRoot c10base ⟨0, 0, 0, 0, 0⟩).1 = true ∧
    tableFind c10srv.inode_table "/" = some 0 ∧
    (0 : Nat) ≠ GetRootInode ∧
    LookupIno c10srv ⟨0, 0, 0, 0, 0⟩ "/" = 0 ∧
    (FindInodeByPath c10srv ⟨0, 0, 0, 0, 0⟩ "/").map Inode.inode = some 0 := by
  refine ⟨by decide, by decide, by decide, by decide, by decide⟩


/-- C1: applying `AllocPath 1; DeletePath 1; AllocPath 2` to a fresh manager
leaves chunk 2 mapped in memory, but replaying the log file those operations
wrote yields a map without chunk 2: the DEL line carries no path token, so
the replay loop consumes the following `ADD` as the DEL path, then fails to
parse the path `/data/00/00/chunk_2` as the next chunk id and stops.  This
refutes the claimed replay equivalence at a concrete operation sequence; per
the spec the log format (`DEL <chunk_id_dec> \n`) and the replay fold are the
intent, so the parse loop is the defect. -/
theorem C1_manifest_replay_diverges :
    mapLookup (AllocPath (DeletePath (AllocPath (freshManager ["/data"]) 1) 1)
        2).path_map 2 = some "/data/00/00/chunk_2" ∧
    mapLookup (LoadManifest (AllocPath (DeletePath
        (AllocPath (freshManager ["/data"]) 1) 1) 2).manifest_log) 2 = none := by
  decide

/-- C3: `HandleRegister` on a valid request stores the generated id in the
registry but fills the response from the moved-from context, so the response
carries an empty node id, and a heartbeat with that returned id comes back
`InvalidArgument` with `require_rereg` instead of finding the node. -/
theorem C3_register_response_loses_node_id :
    (HandleRegister [] ⟨"10.0.0.1", 8000, "host-a"⟩ "node-1700000000000-0"
        5).2.node_id = "" ∧
    (HandleRegister [] ⟨"10.0.0.1", 8000, "host-a"⟩ "node-1700000000000-0"
        5).2.status.code = StatusCode.Success ∧
    (Registry.find (HandleRegister [] ⟨"10.0.0.1", 8000, "host-a"⟩
        "node-1700000000000-0" 5).1 "node-1700000000000-0").isSome = true ∧
    (HandleHeartbeat (HandleRegister [] ⟨"10.0.0.1", 8000, "host-a"⟩
        "node-1700000000000-0" 5).1
      (HandleRegister [] ⟨"10.0.0.1", 8000, "host-a"⟩ "node-1700000000000-0"
        5).2.node_id 6).2.status.code = StatusCode.InvalidArgument ∧
    (HandleHeartbeat (HandleRegister [] ⟨"10.0.0.1", 8000, "host-a"⟩
        "node-1700000000000-0" 5).1
      (HandleRegister [] ⟨"10.0.0.1", 8000, "host-a"⟩ "node-1700000000000-0"
        5).2.node_id 6).2.require_rereg = true := by
  decide

end ZB
